import Mathlib

/-!
Verification of the cell-centered multigrid Helmholtz solver
(src/multigrid/multigrid.py, class ccMG2d) and of the incompressible-flow
time stepper (src/incompressible/simulation.py, class Simulation).

Modelling conventions.
A 2-d scalar array with ghost cells is a total function `ℤ → ℤ → ℝ`; every
stencil below reads and writes exactly the index rectangle of the
corresponding numpy slice assignment, so values outside the array extent are
carried unchanged (they model memory that does not exist and are never
observed by the claims).  Floating-point arithmetic is modelled by exact
real arithmetic.  Collaborators that live outside src/ (the mesh.patch
boundary-condition fill, restriction and prolongation, and the Fortran
advection kernels mac_vels/states and the slope limiters) enter as function
parameters of the embedded operations; the concrete instances used in
witnesses and counterexamples are modelled from the spec and marked as such.
-/

open scoped Classical

noncomputable section

/-- A 2-d cell-centered scalar array with ghost cells (a numpy float array,
indexed `[i, j]`, extended to all of `ℤ × ℤ`). -/
def Arr : Type := ℤ → ℤ → ℝ

/-- The all-zero field (`numpy.zeros`, and also `scratch_array()`). -/
def zeroField : Arr := fun _ _ => 0

/-- The constant-one field, used as a concrete test input. -/
def oneField : Arr := fun _ _ => 1

/-- Grid geometry, from mesh.patch's 2-d grid: `nx × ny` interior cells,
`ng` ghost layers, physical extents.  (mesh.patch is not under src/; only
the derived quantities used by src/ are modelled.) -/
structure Grid2d where
  nx : ℕ
  ny : ℕ
  ng : ℕ
  xmin : ℝ
  xmax : ℝ
  ymin : ℝ
  ymax : ℝ

def Grid2d.dx (g : Grid2d) : ℝ := (g.xmax - g.xmin) / g.nx

def Grid2d.dy (g : Grid2d) : ℝ := (g.ymax - g.ymin) / g.ny

/-- First interior index in x: `ilo = ng`. -/
def Grid2d.ilo (g : Grid2d) : ℤ := g.ng

/-- Last interior index in x: `ihi = ng + nx - 1`. -/
def Grid2d.ihi (g : Grid2d) : ℤ := (g.ng : ℤ) + g.nx - 1

def Grid2d.jlo (g : Grid2d) : ℤ := g.ng

def Grid2d.jhi (g : Grid2d) : ℤ := (g.ng : ℤ) + g.ny - 1

/-- Total array extent in x: `qx = nx + 2 ng`. -/
def Grid2d.qx (g : Grid2d) : ℕ := g.nx + 2 * g.ng

def Grid2d.qy (g : Grid2d) : ℕ := g.ny + 2 * g.ng

/-- `(i, j)` is an interior cell of `g`. -/
def Grid2d.interior (g : Grid2d) (i j : ℤ) : Prop :=
  g.ilo ≤ i ∧ i ≤ g.ihi ∧ g.jlo ≤ j ∧ j ≤ g.jhi

instance (g : Grid2d) (i j : ℤ) : Decidable (g.interior i j) := by
  unfold Grid2d.interior; infer_instance

/-- Per-level data of the multigrid hierarchy: the solution `v`, the
right-hand side `f` and the residual `r` registered on each level's grid. -/
@[ext] structure LevelData where
  v : Arr
  f : Arr
  r : Arr

/-- The hierarchy of per-level data, indexed by level (0 = coarsest). -/
def Levels : Type := ℕ → LevelData

/-- All-zero level data (`ccData2d.create` zero-initializes each array). -/
def zeroLevels : Levels := fun _ => ⟨zeroField, zeroField, zeroField⟩

/-- Replace the `v` array of level `ℓ`. -/
def setV (ℓ : ℕ) (w : Arr) (lv : Levels) : Levels :=
  fun ℓ' => if ℓ' = ℓ then { lv ℓ' with v := w } else lv ℓ'

/-- Replace the `f` array of level `ℓ`. -/
def setF (ℓ : ℕ) (w : Arr) (lv : Levels) : Levels :=
  fun ℓ' => if ℓ' = ℓ then { lv ℓ' with f := w } else lv ℓ'

/-- Replace the `r` array of level `ℓ`. -/
def setR (ℓ : ℕ) (w : Arr) (lv : Levels) : Levels :=
  fun ℓ' => if ℓ' = ℓ then { lv ℓ' with r := w } else lv ℓ'

/-- L2 grid norm from multigrid.error:
`sqrt(dx*dy*sum(r[ilo:ihi+1, jlo:jhi+1]**2))`, the sum over interior cells. -/
def errNorm (g : Grid2d) (r : Arr) : ℝ :=
  Real.sqrt (g.dx * g.dy *
    ∑ i in Finset.Icc g.ilo g.ihi, ∑ j in Finset.Icc g.jlo g.jhi, (r i j) ^ 2)

/-- One parity sub-sweep of red-black Gauss-Seidel: the numpy slice
assignment `v[ilo+pa:…:2, jlo+pb:…:2] = (f + xcoeff*(vE+vW) + ycoeff*(vN+vS))
/ (alpha + 2*xcoeff + 2*ycoeff)` from ccMG2d.smooth, with
`xcoeff = beta/dx**2`, `ycoeff = beta/dy**2`.  The slice selects the interior
cells whose index offsets from `(ilo, jlo)` have parities `(pa, pb)`; the
right-hand side is evaluated on the pre-assignment array, as numpy does. -/
def parityUpdate (g : Grid2d) (alpha beta : ℝ) (f : Arr) (pa pb : ℤ)
    (v : Arr) : Arr :=
  fun i j =>
    if g.ilo ≤ i ∧ i ≤ g.ihi ∧ g.jlo ≤ j ∧ j ≤ g.jhi ∧
        (i - g.ilo) % 2 = pa ∧ (j - g.jlo) % 2 = pb then
      (f i j + (beta / g.dx ^ 2) * (v (i + 1) j + v (i - 1) j)
             + (beta / g.dy ^ 2) * (v i (j + 1) + v i (j - 1))) /
        (alpha + 2 * (beta / g.dx ^ 2) + 2 * (beta / g.dy ^ 2))
    else v i j

/-- One iteration of the `while (i < nsmooth)` loop body of ccMG2d.smooth:
the even-even slice, the odd-odd slice, a ghost fill, the odd-even slice,
the even-odd slice, and a second ghost fill, in source order.  `bc` is the
mesh.patch `fillBC` for the level (a collaborator outside src/). -/
def smoothPass (g : Grid2d) (bc : Arr → Arr) (alpha beta : ℝ) (f : Arr)
    (v : Arr) : Arr :=
  bc (parityUpdate g alpha beta f 0 1
       (parityUpdate g alpha beta f 1 0
         (bc (parityUpdate g alpha beta f 1 1
               (parityUpdate g alpha beta f 0 0 v)))))

/-- ccMG2d.smooth on one level's arrays: an initial ghost fill, then
`nsmooth` red-black passes. -/
def smoothFn (g : Grid2d) (bc : Arr → Arr) (alpha beta : ℝ) (f : Arr)
    (nsmooth : ℕ) (v : Arr) : Arr :=
  (smoothPass g bc alpha beta f)^[nsmooth] (bc v)

/-- ccMG2d.computeResidual's array update:
`r[interior] = f - alpha*v + beta*((vW + vE - 2v)/dx² + (vS + vN - 2v)/dy²)`;
ghost entries of `r` are left as they were. -/
def residualField (g : Grid2d) (alpha beta : ℝ) (v f r : Arr) : Arr :=
  fun i j =>
    if g.interior i j then
      f i j - alpha * v i j +
        beta * ((v (i - 1) j + v (i + 1) j - 2 * v i j) / (g.dx * g.dx) +
                (v i (j - 1) + v i (j + 1) - 2 * v i j) / (g.dy * g.dy))
    else r i j

/-- The multigrid object ccMG2d: the solver parameters fixed by `__init__`
together with its mutable attributes.  `bc`, `restrictOp` and `prolongOp`
are the per-level mesh.patch collaborators `fillBC`, `restrict` and
`prolong` (not under src/, hence parameters): `restrictOp ℓ` maps level-`ℓ`
data to a level-`(ℓ-1)` array, `prolongOp ℓ` maps level-`ℓ` data to a
level-`(ℓ+1)` array. -/
structure ccMG2d where
  nx : ℕ
  xmin : ℝ
  xmax : ℝ
  ymin : ℝ
  ymax : ℝ
  alpha : ℝ
  beta : ℝ
  nsmooth : ℕ
  maxCycles : ℕ
  small : ℝ
  nlevels : ℕ
  bc : ℕ → Arr → Arr
  restrictOp : ℕ → Arr → Arr
  prolongOp : ℕ → Arr → Arr
  grids : Levels
  initializedSolution : Bool
  initializedRHS : Bool
  sourceNorm : ℝ
  numCycles : ℕ
  residualError : ℝ
  relativeError : ℝ

/-- The grid of level `ℓ`: the construction loop of `__init__` starts from a
1×1 interior and doubles `nx_t`, `ny_t` at each level, always with `ng = 1`
and the full physical extents. -/
def ccMG2d.gridAt (a : ccMG2d) (ℓ : ℕ) : Grid2d :=
  { nx := 2 ^ ℓ, ny := 2 ^ ℓ, ng := 1,
    xmin := a.xmin, xmax := a.xmax, ymin := a.ymin, ymax := a.ymax }

/-- The finest level index, `nlevels - 1`. -/
def ccMG2d.finest (a : ccMG2d) : ℕ := a.nlevels - 1

/-- State of a freshly constructed ccMG2d (the attribute assignments of
`__init__`): `nsmooth = 10`, `maxCycles = 100`, `small = 1e-16`,
`nlevels = log2(nx) + 1`, both initialization flags clear, zeroed arrays and
the initial diagnostics `numCycles = 0`, `residualError = relativeError
= 1e33`. -/
def ccMG2d.make (nx : ℕ) (xmin xmax ymin ymax alpha beta : ℝ)
    (bc restrictOp prolongOp : ℕ → Arr → Arr) : ccMG2d :=
  { nx := nx, xmin := xmin, xmax := xmax, ymin := ymin, ymax := ymax,
    alpha := alpha, beta := beta,
    nsmooth := 10, maxCycles := 100, small := 1e-16,
    nlevels := Nat.log2 nx + 1,
    bc := bc, restrictOp := restrictOp, prolongOp := prolongOp,
    grids := zeroLevels,
    initializedSolution := false, initializedRHS := false,
    sourceNorm := 0, numCycles := 0,
    residualError := 1e33, relativeError := 1e33 }

/-- The guard clauses of ccMG2d.__init__ (the `nx != ny` and square-domain
checks; each prints an error and does `return -1`, which aborts construction
with a TypeError in Python 2 — modelled as `Except.error`). -/
def ccMG2dInitCheck (nx ny : ℕ) (xmin xmax ymin ymax : ℝ) :
    Except String Unit :=
  if nx ≠ ny then Except.error "ERROR: multigrid currently requires nx = ny"
  else if xmax - xmin ≠ ymax - ymin then
    Except.error "ERROR: multigrid currently requires a square domain"
  else Except.ok ()

/-- ccMG2d.initSolution: `v[:,:] = data` on the finest level and set the
solution-initialized flag. -/
def ccMG2d.initSolution (a : ccMG2d) (data : Arr) : ccMG2d :=
  { a with grids := setV a.finest data a.grids, initializedSolution := true }

/-- ccMG2d.initZeros: zero the finest-level solution and set the flag. -/
def ccMG2d.initZeros (a : ccMG2d) : ccMG2d :=
  { a with
    grids := setV a.finest zeroField a.grids,
    initializedSolution := true }

/-- ccMG2d.initRHS: `f[:,:] = data` on the finest level, record the source
norm, and set the RHS-initialized flag. -/
def ccMG2d.initRHS (a : ccMG2d) (data : Arr) : ccMG2d :=
  { a with
    grids := setF a.finest data a.grids,
    sourceNorm := errNorm (a.gridAt a.finest) data,
    initializedRHS := true }

/-- ccMG2d.smooth: red-black Gauss-Seidel on level `ℓ`'s `v` array. -/
def ccMG2d.smooth (a : ccMG2d) (ℓ : ℕ) (nsmooth : ℕ) : ccMG2d :=
  { a with
    grids := setV ℓ (smoothFn (a.gridAt ℓ) (a.bc ℓ) a.alpha a.beta
      ((a.grids ℓ).f) nsmooth ((a.grids ℓ).v)) a.grids }

/-- ccMG2d.computeResidual on level `ℓ`. -/
def ccMG2d.computeResidual (a : ccMG2d) (ℓ : ℕ) : ccMG2d :=
  { a with
    grids := setR ℓ (residualField (a.gridAt ℓ) a.alpha a.beta
      ((a.grids ℓ).v) ((a.grids ℓ).f) ((a.grids ℓ).r)) a.grids }

/-- Ascending counted loop: `loopUpAux f n level s` runs `f level; f (level+1);
…` for `n` iterations — the shape of the Python `while level < stop` loops
(with `n = stop - level`). -/
def loopUpAux {S : Type _} (f : ℕ → S → S) : ℕ → ℕ → S → S
  | 0, _, s => s
  | n + 1, level, s => loopUpAux f n (level + 1) (f level s)

/-- Descending loop: `loopDown f l s` runs `f l; f (l-1); …; f 1` — the
shape of the Python `while level > 0: … level -= 1` loop. -/
def loopDown {S : Type _} (f : ℕ → S → S) : ℕ → S → S
  | 0, s => s
  | l + 1, s => loopDown f l (f (l + 1) s)

/-- Descent body of the V-cycle at level `ℓ` (solve, lines 365-398, with
`verbose = 0`): smooth `nsmooth` sweeps, compute the residual, and copy
`restrict("r")` into the coarser level's `f` array. -/
def descentStep (a : ccMG2d) (ℓ : ℕ) (lv : Levels) : Levels :=
  let lv1 := setV ℓ (smoothFn (a.gridAt ℓ) (a.bc ℓ) a.alpha a.beta
                      ((lv ℓ).f) a.nsmooth ((lv ℓ).v)) lv
  let lv2 := setR ℓ (residualField (a.gridAt ℓ) a.alpha a.beta
                      ((lv1 ℓ).v) ((lv1 ℓ).f) ((lv1 ℓ).r)) lv1
  setF (ℓ - 1) (a.restrictOp ℓ ((lv2 ℓ).r)) lv2

/-- Bottom solve of the V-cycle (solve, lines 405-411):
`v[ilo] = -0.125*f[ilo]*dx*dx` — a numpy *row* assignment covering every
`j` of the 1×1-interior level-0 array, ghost entries included — followed by
`fillBC("v")`. -/
def bottomStep (a : ccMG2d) (lv : Levels) : Levels :=
  let g0 := a.gridAt 0
  let v1 : Arr := fun i j =>
    if i = g0.ilo ∧ 0 ≤ j ∧ j < (g0.qy : ℤ) then
      -0.125 * (lv 0).f i j * (g0.dx * g0.dx)
    else (lv 0).v i j
  setV 0 (a.bc 0 v1) lv

/-- Ascent body of the V-cycle at level `ℓ` (solve, lines 416-447, with
`verbose = 0`): `e = prolong` of the coarser level's `v`, the whole-array
correction `v += e`, then `nsmooth` smoothing sweeps. -/
def ascentStep (a : ccMG2d) (ℓ : ℕ) (lv : Levels) : Levels :=
  let e := a.prolongOp (ℓ - 1) ((lv (ℓ - 1)).v)
  let lv1 := setV ℓ (fun i j => (lv ℓ).v i j + e i j) lv
  setV ℓ (smoothFn (a.gridAt ℓ) (a.bc ℓ) a.alpha a.beta
           ((lv1 ℓ).f) a.nsmooth ((lv1 ℓ).v)) lv1

/-- One V-cycle: the body of solve's `while (not converged …)` loop up to the
diagnostics (lines 354-447): zero `v` on every level but the finest, descend
from `nlevels-1` to 1, bottom-solve level 0, ascend from 1 to `nlevels-1`. -/
def vcycleLevels (a : ccMG2d) (lv : Levels) : Levels :=
  let z := loopUpAux (fun ℓ s => setV ℓ zeroField s) (a.nlevels - 1) 0 lv
  let d := loopDown (descentStep a) (a.nlevels - 1) z
  let b := bottomStep a d
  loopUpAux (ascentStep a) (a.nlevels - 1) 1 b

/-- After each V-cycle solve recomputes the finest residual; this is the
levels-to-levels map of one full cycle iteration. -/
def cycleStep (a : ccMG2d) (lv : Levels) : Levels :=
  let lv1 := vcycleLevels a lv
  setR a.finest (residualField (a.gridAt a.finest) a.alpha a.beta
    ((lv1 a.finest).v) ((lv1 a.finest).f) ((lv1 a.finest).r)) lv1

/-- The residual error solve computes after a cycle: `error(r)/sourceNorm`
when the source norm is nonzero, else `error(r)` (lines 465-468). -/
def resErrOf (a : ccMG2d) (lv : Levels) : ℝ :=
  if a.sourceNorm ≠ 0 then errNorm (a.gridAt a.finest) ((lv a.finest).r) / a.sourceNorm
  else errNorm (a.gridAt a.finest) ((lv a.finest).r)

/-- Result of ccMG2d.solve: the hierarchy plus the final values of the
attributes `numCycles`, `residualError`, `relativeError` and of the loop's
local variables `converged` and `cycle`. -/
structure MGSolveOutcome where
  levels : Levels
  converged : Bool
  cycle : ℕ
  numCycles : ℕ
  residualError : ℝ
  relativeError : ℝ

/-- The `while (not converged and cycle <= maxCycles)` loop of ccMG2d.solve,
by fuel (`fuel = maxCycles - cycle + 1` iterations remain).  Each iteration
runs a V-cycle, computes the diagnostic relative error against the previous
solution `old`, recomputes the finest residual and the residual error, and
either converges (recording the diagnostics and filling the finest ghost
cells) or continues.  On fuel exhaustion the loop exits with the attribute
values it was entered with — the converged-branch assignments never ran. -/
def solveLoop (a : ccMG2d) (rtol : ℝ) :
    ℕ → ℕ → Arr → Levels → MGSolveOutcome
  | 0, cycle, _, lv =>
    { levels := lv, converged := false, cycle := cycle,
      numCycles := a.numCycles, residualError := a.residualError,
      relativeError := a.relativeError }
  | fuel + 1, cycle, old, lv =>
    let fg := a.gridAt a.finest
    let lv1 := vcycleLevels a lv
    let vNew := (lv1 a.finest).v
    let relErr := errNorm fg
      (fun i j => (vNew i j - old i j) / (vNew i j + a.small))
    let lv2 := setR a.finest (residualField fg a.alpha a.beta
      ((lv1 a.finest).v) ((lv1 a.finest).f) ((lv1 a.finest).r)) lv1
    let resErr :=
      if a.sourceNorm ≠ 0 then errNorm fg ((lv2 a.finest).r) / a.sourceNorm
      else errNorm fg ((lv2 a.finest).r)
    if resErr < rtol then
      { levels := setV a.finest (a.bc a.finest vNew) lv2, converged := true,
        cycle := cycle + 1, numCycles := cycle,
        residualError := resErr, relativeError := relErr }
    else
      solveLoop a rtol fuel (cycle + 1) vNew lv2

/-- The outcome solve produces once past its initialization guard: the loop
started at `cycle = 1` with `oldSolution` the finest `v`. -/
def solveOutcome (a : ccMG2d) (rtol : ℝ) : MGSolveOutcome :=
  solveLoop a rtol a.maxCycles 1 ((a.grids a.finest).v) a.grids

/-- The message of solve's initialization guard (`msg.fail(...)`; the `msg`
module is not even imported in multigrid.py, so the failure surfaces as a
NameError — either way the solve aborts before any V-cycle). -/
def initErrorMsg : String := "ERROR: solution and RHS are not initialized"

/-- ccMG2d.solve: fail unless both the solution and the RHS have been
initialized, otherwise run V-cycles until convergence or the cycle cap. -/
def ccMG2d.solve (a : ccMG2d) (rtol : ℝ) : Except String MGSolveOutcome :=
  if ¬(a.initializedSolution = true ∧ a.initializedRHS = true) then
    Except.error initErrorMsg
  else Except.ok (solveOutcome a rtol)

/-! Spec-side descriptions.

The following definitions transcribe what the specification *says* the code
does; the claim theorems compare them with the source-translated definitions
above. -/

/-- Spec transcription of one parity sub-sweep's relaxation, §4.4:
`v_{i,j} ← (f + cx·(v_{i+1,j}+v_{i−1,j}) + cy·(v_{i,j+1}+v_{i,j−1})) /
(α + 2cx + 2cy)` with `cx = β/dx²`, `cy = β/dy²`, applied on the interior
subgrid whose index parities relative to `(ilo, jlo)` are `(pa, pb)`. -/
def relaxSubgridSpec (g : Grid2d) (alpha beta : ℝ) (f : Arr) (p : ℤ × ℤ)
    (v : Arr) : Arr :=
  fun i j =>
    if g.interior i j ∧ (i - g.ilo) % 2 = p.1 ∧ (j - g.jlo) % 2 = p.2 then
      (f i j + (beta / g.dx ^ 2) * (v (i + 1) j + v (i - 1) j)
             + (beta / g.dy ^ 2) * (v i (j + 1) + v i (j - 1))) /
        (alpha + 2 * (beta / g.dx ^ 2) + 2 * (beta / g.dy ^ 2))
    else v i j

/-- Spec transcription of one red-black pass, §4.4: the four index-parity
subgrids in the order (even,even), (odd,odd), (odd,even), (even,odd), with a
ghost fill after each pair of sub-sweeps. -/
def smoothPassSpec (g : Grid2d) (bc : Arr → Arr) (alpha beta : ℝ) (f : Arr)
    (v : Arr) : Arr :=
  bc (([((1 : ℤ), (0 : ℤ)), (0, 1)]).foldl
    (fun w p => relaxSubgridSpec g alpha beta f p w)
    (bc (([((0 : ℤ), (0 : ℤ)), (1, 1)]).foldl
      (fun w p => relaxSubgridSpec g alpha beta f p w) v)))

/-- Spec transcription of smoothing, §4.4: ghost cells filled once before
the sweep begins, then `nsmooth` complete red-black passes. -/
def smoothSpec (g : Grid2d) (bc : Arr → Arr) (alpha beta : ℝ) (f : Arr) :
    ℕ → Arr → Arr
  | 0, v => bc v
  | n + 1, v => smoothPassSpec g bc alpha beta f (smoothSpec g bc alpha beta f n v)

/-- Spec transcription of the V-cycle pre-step, §4.7 item 1: zero `v` on
every level except the finest. -/
def preZeroSpec (a : ccMG2d) (lv : Levels) : Levels :=
  fun ℓ => if ℓ < a.nlevels - 1 then { lv ℓ with v := zeroField } else lv ℓ

/-- Spec transcription of the descent, §4.7 item 2: for level = L−1 down
to 1, smooth, compute the residual, set the coarser level's f to the
restricted residual. -/
def descentSpec (a : ccMG2d) (lv : Levels) : Levels :=
  ((List.range' 1 (a.nlevels - 1)).reverse).foldl
    (fun s ℓ => descentStep a ℓ s) lv

/-- Spec transcription of the bottom solve, §4.7 item 3: set the single
interior cell `v_{ilo,jlo} = −0.125·f_{ilo,jlo}·dx²`, then fill ghosts. -/
def bottomSpec (a : ccMG2d) (lv : Levels) : Levels :=
  let g0 := a.gridAt 0
  setV 0 (a.bc 0 (fun i j =>
    if i = g0.ilo ∧ j = g0.jlo then
      -0.125 * (lv 0).f i j * (g0.dx * g0.dx)
    else (lv 0).v i j)) lv

/-- Spec transcription of the ascent, §4.7 item 4: for level = 1 up to L−1,
prolong the coarser `v` as a correction, add it, smooth. -/
def ascentSpec (a : ccMG2d) (lv : Levels) : Levels :=
  (List.range' 1 (a.nlevels - 1)).foldl (fun s ℓ => ascentStep a ℓ s) lv

/-- Spec transcription of one V-cycle, §4.7: pre-zero, then descent, then
bottom solve, then ascent, in that order. -/
def vcycleSpec (a : ccMG2d) (lv : Levels) : Levels :=
  ascentSpec a (bottomSpec a (descentSpec a (preZeroSpec a lv)))

/-- A ghost fill whose whole output is a function of the interior values
alone (true of every BCPolicy fill of §4.2: ghost cells are written from
interior data, interior cells are untouched). -/
def InteriorDetermined (g : Grid2d) (bc : Arr → Arr) : Prop :=
  ∀ u w : Arr, (∀ i j : ℤ, g.interior i j → u i j = w i j) → bc u = bc w

/-! Concrete collaborator instances (modelled from the spec).

mesh.patch is not under src/; these instances realize its collaborators for
the witnesses and counterexamples. -/

/-- Modelled from the spec: §4.2 `periodic` boundary fill of the mesh.patch
`fillBC` collaborator (not under src/) — every index is wrapped into the
interior range, so each ghost cell copies the opposite interior edge. -/
def periodicFill (g : Grid2d) (u : Arr) : Arr :=
  fun i j => u (g.ilo + (i - g.ilo) % (g.nx : ℤ)) (g.jlo + (j - g.jlo) % (g.ny : ℤ))

/-- Modelled from the spec: §4.6 full-weighting restriction of the
mesh.patch `restrict` collaborator (not under src/) — each coarse interior
cell averages its 2×2 fine children; with one ghost layer the fine children
of coarse cell `(I, J)` sit at indices `2I−1, 2I` and `2J−1, 2J`. -/
def restrictFW (u : Arr) : Arr :=
  fun i j =>
    0.25 * (u (2 * i - 1) (2 * j - 1) + u (2 * i) (2 * j - 1) +
            u (2 * i - 1) (2 * j) + u (2 * i) (2 * j))

/-- Modelled from the spec: §4.6 piecewise-constant prolongation of the
mesh.patch `prolong` collaborator (not under src/) — each fine cell takes
its coarse parent's value; with one ghost layer fine cell `i` has parent
`(i + 1) / 2` (integer division). -/
def prolongPC (u : Arr) : Arr :=
  fun i j => u ((i + 1) / 2) ((j + 1) / 2)

/-- Shared concrete multigrid instance: a 2×2 finest grid on the unit
square, Poisson coefficients, periodic fills and the modelled transfer
operators. -/
def mgExample : ccMG2d :=
  ccMG2d.make 2 0 1 0 1 0 (-1)
    (fun ℓ => periodicFill
      { nx := 2 ^ ℓ, ny := 2 ^ ℓ, ng := 1,
        xmin := 0, xmax := 1, ymin := 0, ymax := 1 })
    (fun _ => restrictFW) (fun _ => prolongPC)

/-- The shared instance with solution and RHS initialized to zero. -/
def mgExampleInit : ccMG2d := (mgExample.initZeros).initRHS zeroField

/-! The incompressible-flow time stepper (src/incompressible/simulation.py). -/

/-- The flow state owned by Simulation.cc_data: the six registered
variables plus the stored simulation time `t`. -/
structure FlowState where
  u : Arr
  v : Arr
  phi : Arr
  phiMAC : Arr
  gradpX : Arr
  gradpY : Arr
  t : ℝ

/-- The runtime parameters Simulation reads (`rp.get_param`). -/
structure SimParams where
  cfl : ℝ
  limiter : ℤ
  projType : ℤ

/-- The collaborators of Simulation that are not under src/: the
boundary-condition fills of the two velocity variables, the three slope
limiters of mesh.reconstruction_f, the Fortran kernels
incomp_interface_f.mac_vels and incomp_interface_f.states (argument order
`dt, u, v, ldelta_ux, ldelta_vx, ldelta_uy, ldelta_vy, gradp_x, gradp_y`
[`, u_MAC, v_MAC`]), and the multigrid Poisson solve-and-extract
(`rtol, initial guess, rhs ↦ solution`, standing for constructing the MG
object, initializing it, solving, and reading the solution back). -/
structure Kernels where
  fillU : Arr → Arr
  fillV : Arr → Arr
  nolimit : ℤ → Arr → Arr
  limit2 : ℤ → Arr → Arr
  limit4 : ℤ → Arr → Arr
  macVels : ℝ → Arr → Arr → Arr → Arr → Arr → Arr → Arr → Arr → Arr × Arr
  states : ℝ → Arr → Arr → Arr → Arr → Arr → Arr → Arr → Arr → Arr → Arr →
    Arr × Arr × Arr × Arr
  poisson : ℝ → Arr → Arr → Arr

/-- Which limiter the branch at evolve lines 230-233 selects. -/
inductive LimiterKind where
  | nolimit : LimiterKind
  | limit2 : LimiterKind
  | limit4 : LimiterKind
deriving DecidableEq

/-- The limiter selection of evolve: `0 → nolimit`, `1 → limit2`, and *every
other value* → `limit4` (the final `else`). -/
def limiterChoice (limiter : ℤ) : LimiterKind :=
  if limiter = 0 then LimiterKind.nolimit
  else if limiter = 1 then LimiterKind.limit2
  else LimiterKind.limit4

/-- The limiter function evolve binds to `limitFunc`. -/
def limitFuncOf (K : Kernels) (limiter : ℤ) : ℤ → Arr → Arr :=
  match limiterChoice limiter with
  | LimiterKind.nolimit => K.nolimit
  | LimiterKind.limit2 => K.limit2
  | LimiterKind.limit4 => K.limit4

/-- The provisional whole-array velocity update of evolve (lines 383-389):
`u -= dt*advect + dt*gradp` for `proj_type = 1`, `u -= dt*advect` for
`proj_type = 2`, and *no update at all* for any other value (no `else`
branch exists). -/
def provisionalVel (projType : ℤ) (dt : ℝ) (advect gradp u : Arr) : Arr :=
  if projType = 1 then fun i j => u i j - (dt * advect i j + dt * gradp i j)
  else if projType = 2 then fun i j => u i j - dt * advect i j
  else u

/-- The stored-gradient update of evolve (lines 456-462): `gradp +=
gradphi` for `proj_type = 1`, `gradp = gradphi` for `proj_type = 2`, and
*no update at all* for any other value. -/
def gradpNew (projType : ℤ) (gradp gradphi : Arr) : Arr :=
  if projType = 1 then fun i j => gradp i j + gradphi i j
  else if projType = 2 then gradphi
  else gradp

/-- The interior of the multigrid solution grid matched to flow grid `g`:
same extents and cell counts, one ghost layer.  Flow-array index `i`
corresponds to MG-array index `i - off` with `off = g.ng - 1`. -/
def mgOf (g : Grid2d) : Grid2d := { g with ng := 1 }

/-- The flow-to-MG index offset `myg.ilo - MG.ilo`. -/
def mgOff (g : Grid2d) : ℤ := (g.ng : ℤ) - 1

/-- Simulation.timestep: `dt = cfl * min((dx/abs(u)).min(), (dy/abs(v)).min())`
— numpy `.min()` over the *whole* arrays, ghost cells included.  The
minimum of a nonempty list of reals (`.min()` of a numpy array). -/
def listMinD : List ℝ → ℝ
  | [] => 0
  | x :: xs => xs.foldl min x

/-- Indices `0, …, q-1` of one array axis. -/
def idxList (q : ℕ) : List ℤ := (List.range q).map (fun n => (n : ℤ))

/-- Every cell of the array of grid `g`, ghost cells included. -/
def allCells (g : Grid2d) : List (ℤ × ℤ) :=
  (idxList g.qx).flatMap (fun i => (idxList g.qy).map (fun j => (i, j)))

/-- numpy `arr.min()` of a cell-indexed expression over the whole array. -/
def arrayMin (g : Grid2d) (h : ℤ → ℤ → ℝ) : ℝ :=
  listMinD ((allCells g).map (fun c => h c.1 c.2))

/-- Simulation.timestep (lines 80-101). -/
def timestep (rp : SimParams) (g : Grid2d) (u v : Arr) : ℝ :=
  rp.cfl * min (arrayMin g (fun i j => g.dx / |u i j|))
               (arrayMin g (fun i j => g.dy / |v i j|))

/-- The interior cells of `g` as a list. -/
def interiorCellsList (g : Grid2d) : List (ℤ × ℤ) :=
  ((List.range g.nx).map (fun n => g.ilo + (n : ℤ))).flatMap
    (fun i => ((List.range g.ny).map (fun n => g.jlo + (n : ℤ))).map
      (fun j => (i, j)))

/-- Spec transcription of the claimed timestep: both minima taken over the
interior cells only. -/
def timestepInteriorOnly (rp : SimParams) (g : Grid2d) (u v : Arr) : ℝ :=
  rp.cfl *
    min (listMinD ((interiorCellsList g).map (fun c => g.dx / |u c.1 c.2|)))
        (listMinD ((interiorCellsList g).map (fun c => g.dy / |v c.1 c.2|)))

/-- Simulation.evolve (lines 209-465): slopes, MAC velocities, MAC
projection, edge states, advective terms, provisional update, final
projection, gradient correction and stored-gradient update.  The stored
time `t` is carried through because evolve never touches it. -/
def evolve (rp : SimParams) (K : Kernels) (g : Grid2d) (dt : ℝ)
    (st : FlowState) : FlowState :=
  let mg := mgOf g
  let off := mgOff g
  let u := st.u
  let v := st.v
  let gradp_x := st.gradpX
  let gradp_y := st.gradpY
  let phi := st.phi
  let limitFunc := limitFuncOf K rp.limiter
  let ldelta_ux := limitFunc 1 u
  let ldelta_vx := limitFunc 1 v
  let ldelta_uy := limitFunc 2 u
  let ldelta_vy := limitFunc 2 v
  let mv := K.macVels dt u v ldelta_ux ldelta_vx ldelta_uy ldelta_vy gradp_x gradp_y
  let u_MAC := mv.1
  let v_MAC := mv.2
  let divU : Arr := fun i j =>
    if mg.interior i j then
      (u_MAC (i + off + 1) (j + off) - u_MAC (i + off) (j + off)) / g.dx +
      (v_MAC (i + off) (j + off + 1) - v_MAC (i + off) (j + off)) / g.dy
    else 0
  let sol1 := K.poisson (1e-12) zeroField divU
  let phiMAC1 : Arr := fun i j =>
    if g.ilo - 1 ≤ i ∧ i ≤ g.ihi + 1 ∧ g.jlo - 1 ≤ j ∧ j ≤ g.jhi + 1 then
      sol1 (i - off) (j - off)
    else st.phiMAC i j
  let u_MAC2 : Arr := fun i j =>
    if g.ilo ≤ i ∧ i ≤ g.ihi + 1 ∧ g.jlo ≤ j ∧ j ≤ g.jhi then
      u_MAC i j - (phiMAC1 i j - phiMAC1 (i - 1) j) / g.dx
    else u_MAC i j
  let v_MAC2 : Arr := fun i j =>
    if g.ilo ≤ i ∧ i ≤ g.ihi ∧ g.jlo ≤ j ∧ j ≤ g.jhi + 1 then
      v_MAC i j - (phiMAC1 i j - phiMAC1 i (j - 1)) / g.dy
    else v_MAC i j
  let st4 := K.states dt u v ldelta_ux ldelta_vx ldelta_uy ldelta_vy
    gradp_x gradp_y u_MAC2 v_MAC2
  let u_xint := st4.1
  let v_xint := st4.2.1
  let u_yint := st4.2.2.1
  let v_yint := st4.2.2.2
  let advect_x : Arr := fun i j =>
    if g.interior i j then
      0.5 * (u_MAC2 i j + u_MAC2 (i + 1) j) *
        (u_xint (i + 1) j - u_xint i j) / g.dx +
      0.5 * (v_MAC2 i j + v_MAC2 i (j + 1)) *
        (u_yint i (j + 1) - u_yint i j) / g.dy
    else 0
  let advect_y : Arr := fun i j =>
    if g.interior i j then
      0.5 * (u_MAC2 i j + u_MAC2 (i + 1) j) *
        (v_xint (i + 1) j - v_xint i j) / g.dx +
      0.5 * (v_MAC2 i j + v_MAC2 i (j + 1)) *
        (v_yint i (j + 1) - v_yint i j) / g.dy
    else 0
  let u1 := provisionalVel rp.projType dt advect_x gradp_x u
  let v1 := provisionalVel rp.projType dt advect_y gradp_y v
  let u2 := K.fillU u1
  let v2 := K.fillV v1
  let divU2 : Arr := fun i j =>
    if mg.interior i j then
      0.5 * (u2 (i + off + 1) (j + off) - u2 (i + off - 1) (j + off)) / g.dx +
      0.5 * (v2 (i + off) (j + off + 1) - v2 (i + off) (j + off - 1)) / g.dy
    else divU i j
  let rhs2 : Arr := fun i j => divU2 i j / dt
  let phiGuess : Arr := fun i j =>
    if mg.ilo - 1 ≤ i ∧ i ≤ mg.ihi + 1 ∧ mg.jlo - 1 ≤ j ∧ j ≤ mg.jhi + 1 then
      phi (i + off) (j + off)
    else 0
  let sol2 := K.poisson (1e-12) phiGuess rhs2
  let phi2 : Arr := fun i j =>
    if g.ilo - 1 ≤ i ∧ i ≤ g.ihi + 1 ∧ g.jlo - 1 ≤ j ∧ j ≤ g.jhi + 1 then
      sol2 (i - off) (j - off)
    else phi i j
  let gradphi_x : Arr := fun i j =>
    if g.interior i j then 0.5 * (phi2 (i + 1) j - phi2 (i - 1) j) / g.dx else 0
  let gradphi_y : Arr := fun i j =>
    if g.interior i j then 0.5 * (phi2 i (j + 1) - phi2 i (j - 1)) / g.dy else 0
  let u3 : Arr := fun i j => u2 i j - dt * gradphi_x i j
  let v3 : Arr := fun i j => v2 i j - dt * gradphi_y i j
  let gpx2 := gradpNew rp.projType gradp_x gradphi_x
  let gpy2 := gradpNew rp.projType gradp_y gradphi_y
  let u4 := K.fillU u3
  let v4 := K.fillV v3
  { u := u4, v := v4, phi := phi2, phiMAC := phiMAC1,
    gradpX := gpx2, gradpY := gpy2, t := st.t }

/-- The initial-projection phase of Simulation.preevolve (lines 113-179):
fill velocity ghosts, compute the centered divergence, Poisson-solve with a
zero initial guess at rtol 1e-10, copy the solution into `phi` with one
ghost layer, subtract the centered gradient from `u, v` (the gradient lives
in local scratch arrays — the stored `gradp` variables are untouched), and
refill the velocity ghosts.  This is the state preevolve clones. -/
def initialProjection (K : Kernels) (g : Grid2d) (st : FlowState) : FlowState :=
  let mg := mgOf g
  let off := mgOff g
  let u0 := K.fillU st.u
  let v0 := K.fillV st.v
  let divU : Arr := fun i j =>
    if mg.interior i j then
      0.5 * (u0 (i + off + 1) (j + off) - u0 (i + off - 1) (j + off)) / g.dx +
      0.5 * (v0 (i + off) (j + off + 1) - v0 (i + off) (j + off - 1)) / g.dy
    else 0
  let sol := K.poisson (1e-10) zeroField divU
  let phi1 : Arr := fun i j =>
    if g.ilo - 1 ≤ i ∧ i ≤ g.ihi + 1 ∧ g.jlo - 1 ≤ j ∧ j ≤ g.jhi + 1 then
      sol (i - off) (j - off)
    else st.phi i j
  let gradp_x : Arr := fun i j =>
    if g.interior i j then 0.5 * (phi1 (i + 1) j - phi1 (i - 1) j) / g.dx else 0
  let gradp_y : Arr := fun i j =>
    if g.interior i j then 0.5 * (phi1 i (j + 1) - phi1 i (j - 1)) / g.dy else 0
  let u1 : Arr := fun i j => u0 i j - gradp_x i j
  let v1 : Arr := fun i j => v0 i j - gradp_y i j
  let u2 := K.fillU u1
  let v2 := K.fillV v1
  { st with u := u2, v := v2, phi := phi1 }

/-- Simulation.preevolve (lines 104-206): initial projection, clone the
state, `dt = timestep()`, one `evolve(dt)` (with the *configured* rp —
evolve rereads `incompressible.proj_type` itself), copy the evolved
`gradp_x, gradp_y` into the clone, and make the clone the current state. -/
def preevolve (rp : SimParams) (K : Kernels) (g : Grid2d) (st : FlowState) :
    FlowState :=
  let mid := initialProjection K g st
  let dt := timestep rp g mid.u mid.v
  let ev := evolve rp K g dt mid
  { mid with gradpX := ev.gradpX, gradpY := ev.gradpY }

/-- Spec transcription of preevolve §4.10 step 4 as the claim reads it:
identical, except that the inner evolve is forced to `proj_type = 1`. -/
def preevolveClaimed (rp : SimParams) (K : Kernels) (g : Grid2d)
    (st : FlowState) : FlowState :=
  let mid := initialProjection K g st
  let dt := timestep rp g mid.u mid.v
  let ev := evolve { rp with projType := 1 } K g dt mid
  { mid with gradpX := ev.gradpX, gradpY := ev.gradpY }

/-- `12` is not a power of two (for the C7 counterexample). -/
def isPowerOfTwo (n : ℕ) : Prop := ∃ k : ℕ, n = 2 ^ k

/-! Concrete simulation instances for counterexamples. -/

/-- A concrete flow grid: 1×1 interior, the 4 ghost layers of the flow
grid, unit square. -/
def flowGrid : Grid2d :=
  { nx := 1, ny := 1, ng := 4, xmin := 0, xmax := 1, ymin := 0, ymax := 1 }

/-- Concrete runtime parameters with `proj_type = 2`. -/
def rpProj2 : SimParams := { cfl := 1, limiter := 0, projType := 2 }

/-- Concrete collaborator instances: identity fills, zero slopes, zero MAC
velocities and edge states, and a Poisson solve returning the zero field. -/
def kernels0 : Kernels :=
  { fillU := id, fillV := id,
    nolimit := fun _ _ => zeroField,
    limit2 := fun _ _ => zeroField,
    limit4 := fun _ _ => zeroField,
    macVels := fun _ _ _ _ _ _ _ _ _ => (zeroField, zeroField),
    states := fun _ _ _ _ _ _ _ _ _ _ _ =>
      (zeroField, zeroField, zeroField, zeroField),
    poisson := fun _ _ _ => zeroField }

/-- A concrete flow state: all fields one, `t = 0`. -/
def flowOne : FlowState :=
  { u := oneField, v := oneField, phi := oneField, phiMAC := oneField,
    gradpX := oneField, gradpY := oneField, t := 0 }

/-- Concrete 1×1 multigrid instance whose `v` solves its own discrete
equation exactly (`alpha = 0`, `beta = -1`, `v ≡ 1`, `f ≡ 0`). -/
def mgIdemExample : ccMG2d :=
  { ccMG2d.make 1 0 1 0 1 0 (-1)
      (fun ℓ => periodicFill
        { nx := 2 ^ ℓ, ny := 2 ^ ℓ, ng := 1,
          xmin := 0, xmax := 1, ymin := 0, ymax := 1 })
      (fun _ => restrictFW) (fun _ => prolongPC) with
    grids := fun _ => ⟨oneField, zeroField, zeroField⟩ }

/-- The diagnostic relative error solve computes each cycle (lines 452-457):
the grid norm of `(v − v_prev)/(v + small)` on the finest level, evaluated
on the post-V-cycle hierarchy `lv1`. -/
def relErrOf (a : ccMG2d) (old : Arr) (lv1 : Levels) : ℝ :=
  errNorm (a.gridAt a.finest)
    (fun i j => ((lv1 a.finest).v i j - old i j) / ((lv1 a.finest).v i j + a.small))

/-- A minimal grid with a single cell and no ghosts (for witnesses). -/
def tinyGrid : Grid2d :=
  { nx := 1, ny := 1, ng := 0, xmin := 0, xmax := 1, ymin := 0, ymax := 1 }

/-- A velocity array that is 1 everywhere except at the ghost corner
`(0, 0)`, where it is 2. -/
def uSpike : Arr := fun i j => if i = 0 ∧ j = 0 then 2 else 1

/-- Concrete 1×1 multigrid instance with `alpha = 4`, `beta = -1` on a unit
cell, so that the relaxation denominator `alpha + 2 beta/dx² + 2 beta/dy²`
vanishes; `v ≡ 1` and `f ≡ 4` make the residual vanish on the interior. -/
def mgZeroDenomExample : ccMG2d :=
  { ccMG2d.make 1 0 1 0 1 4 (-1)
      (fun ℓ => periodicFill
        { nx := 2 ^ ℓ, ny := 2 ^ ℓ, ng := 1,
          xmin := 0, xmax := 1, ymin := 0, ymax := 1 })
      (fun _ => restrictFW) (fun _ => prolongPC) with
    grids := fun _ => ⟨oneField, (fun _ _ => 4), zeroField⟩ }

end

/-! Theorems settling the claims, with their supporting lemmas. -/

/-- The spec's parity sub-sweep is the source's numpy slice assignment. -/
theorem relaxSubgridSpec_eq (g : Grid2d) (alpha beta : ℝ) (f : Arr)
    (pa pb : ℤ) (v : Arr) :
    relaxSubgridSpec g alpha beta f (pa, pb) v = parityUpdate g alpha beta f pa pb v := by
  funext i j
  simp only [relaxSubgridSpec, parityUpdate, Grid2d.interior, and_assoc]

/-- One spec red-black pass equals one source red-black pass. -/
theorem smoothPassSpec_eq (g : Grid2d) (bc : Arr → Arr) (alpha beta : ℝ)
    (f v : Arr) :
    smoothPassSpec g bc alpha beta f v = smoothPass g bc alpha beta f v := by
  simp only [smoothPassSpec, smoothPass, List.foldl_cons, List.foldl_nil,
    relaxSubgridSpec_eq]

/-- The spec smoothing recursion equals the source smoothing iteration. -/
theorem smoothFn_eq_smoothSpec (g : Grid2d) (bc : Arr → Arr) (alpha beta : ℝ)
    (f : Arr) (nsmooth : ℕ) (v : Arr) :
    smoothFn g bc alpha beta f nsmooth v = smoothSpec g bc alpha beta f nsmooth v := by
  induction nsmooth with
  | zero => rfl
  | succ n ih =>
    rw [smoothFn, Function.iterate_succ_apply', smoothSpec, smoothPassSpec_eq]
    exact congrArg _ ih

/-- C1: For every level and every call smooth(level, nsmooth), each of the
nsmooth red-black passes updates the four index-parity interior subgrids in
the order (even,even), (odd,odd), (odd,even), (even,odd), each updated cell
receiving `(f + cx·(vE+vW) + cy·(vN+vS)) / (α + 2cx + 2cy)` with
`cx = β/dx²`, `cy = β/dy²`; ghost cells are filled once before the first
pass and twice within each pass (after the (ee,oo) pair and after the
(oe,eo) pair); and the default number of passes set by the constructor
is 10. -/
theorem c1_smooth_red_black :
    (∀ (a : ccMG2d) (ℓ nsmooth : ℕ),
      a.smooth ℓ nsmooth =
        { a with
          grids := setV ℓ (smoothSpec (a.gridAt ℓ) (a.bc ℓ) a.alpha a.beta
            ((a.grids ℓ).f) nsmooth ((a.grids ℓ).v)) a.grids }) ∧
    (∀ (nx : ℕ) (xmin xmax ymin ymax alpha beta : ℝ)
      (bc restrictOp prolongOp : ℕ → Arr → Arr),
      (ccMG2d.make nx xmin xmax ymin ymax alpha beta bc restrictOp prolongOp).nsmooth = 10) := by
  constructor
  · intro a ℓ n
    rw [ccMG2d.smooth, smoothFn_eq_smoothSpec]
  · intros
    rfl

/-- C10: smooth(level, nsmooth) mutates only the `v` array of the given
level; the `f` and `r` arrays of that level, and all arrays of every other
level, are unchanged. -/
theorem c10_smooth_frame :
    ∀ (a : ccMG2d) (ℓ nsmooth ℓ' : ℕ),
      ((a.smooth ℓ nsmooth).grids ℓ').f = (a.grids ℓ').f ∧
      ((a.smooth ℓ nsmooth).grids ℓ').r = (a.grids ℓ').r ∧
      (ℓ' ≠ ℓ → (a.smooth ℓ nsmooth).grids ℓ' = a.grids ℓ') := by
  intro a ℓ n ℓ'
  refine ⟨?_, ?_, ?_⟩ <;> simp only [ccMG2d.smooth, setV] <;> split_ifs with h <;>
    simp [h]

/-- Witness for C10 at a concrete instance: smoothing level 1 leaves
level 0 untouched. -/
theorem c10_smooth_frame_witness :
    (0 : ℕ) ≠ 1 ∧ (mgExample.smooth 1 10).grids 0 = mgExample.grids 0 :=
  ⟨by decide, (c10_smooth_frame mgExample 1 10 0).2.2 (by decide)⟩

/-- A parity sub-sweep fixes any `v` whose residual vanishes on the
interior, provided the relaxation denominator is nonzero. -/
theorem parityUpdate_fixed (g : Grid2d) (alpha beta : ℝ) (f v : Arr)
    (pa pb : ℤ)
    (hres : ∀ i j : ℤ, g.interior i j →
      f i j - alpha * v i j +
        beta * ((v (i - 1) j + v (i + 1) j - 2 * v i j) / (g.dx * g.dx) +
                (v i (j - 1) + v i (j + 1) - 2 * v i j) / (g.dy * g.dy)) = 0)
    (hD : alpha + 2 * (beta / g.dx ^ 2) + 2 * (beta / g.dy ^ 2) ≠ 0) :
    parityUpdate g alpha beta f pa pb v = v := by
  funext i j
  rw [parityUpdate]
  split_ifs with h
  · have hint : g.interior i j := ⟨h.1, h.2.1, h.2.2.1, h.2.2.2.1⟩
    have hr := hres i j hint
    have hf : f i j = alpha * v i j -
        beta * ((v (i - 1) j + v (i + 1) j - 2 * v i j) / (g.dx * g.dx) +
                (v i (j - 1) + v i (j + 1) - 2 * v i j) / (g.dy * g.dy)) := by
      linarith
    rw [div_eq_iff hD, hf, pow_two, pow_two]
    ring
  · rfl

/-- A full red-black pass fixes such a `v` when the ghost fill does. -/
theorem smoothPass_fixed (g : Grid2d) (bc : Arr → Arr) (alpha beta : ℝ)
    (f v : Arr)
    (hbc : bc v = v)
    (hres : ∀ i j : ℤ, g.interior i j →
      f i j - alpha * v i j +
        beta * ((v (i - 1) j + v (i + 1) j - 2 * v i j) / (g.dx * g.dx) +
                (v i (j - 1) + v i (j + 1) - 2 * v i j) / (g.dy * g.dy)) = 0)
    (hD : alpha + 2 * (beta / g.dx ^ 2) + 2 * (beta / g.dy ^ 2) ≠ 0) :
    smoothPass g bc alpha beta f v = v := by
  rw [smoothPass,
    parityUpdate_fixed g alpha beta f v 0 0 hres hD,
    parityUpdate_fixed g alpha beta f v 1 1 hres hD, hbc,
    parityUpdate_fixed g alpha beta f v 1 0 hres hD,
    parityUpdate_fixed g alpha beta f v 0 1 hres hD, hbc]

/-- Replacing a level's `v` by its current value is a no-op. -/
theorem setV_self (ℓ : ℕ) (lv : Levels) : setV ℓ ((lv ℓ).v) lv = lv := by
  funext ℓ'
  rw [setV]
  split_ifs with h
  · rw [h]
  · rfl

/-- C4 (amended): if `v` already satisfies the discrete equation — the
residual `f − α·v + β·∇²v` vanishes at every interior cell, with ghost
cells consistent with the boundary-condition fill — and the relaxation
denominator `α + 2β/dx² + 2β/dy²` is nonzero, then smooth(level, nsmooth)
leaves the solver state unchanged, for every nsmooth. -/
theorem c4_smooth_idempotent (a : ccMG2d) (ℓ nsmooth : ℕ)
    (hbc : a.bc ℓ ((a.grids ℓ).v) = (a.grids ℓ).v)
    (hres : ∀ i j : ℤ, (a.gridAt ℓ).interior i j →
      (a.grids ℓ).f i j - a.alpha * (a.grids ℓ).v i j +
        a.beta * (((a.grids ℓ).v (i - 1) j + (a.grids ℓ).v (i + 1) j -
                    2 * (a.grids ℓ).v i j) / ((a.gridAt ℓ).dx * (a.gridAt ℓ).dx) +
                  ((a.grids ℓ).v i (j - 1) + (a.grids ℓ).v i (j + 1) -
                    2 * (a.grids ℓ).v i j) / ((a.gridAt ℓ).dy * (a.gridAt ℓ).dy)) = 0)
    (hD : a.alpha + 2 * (a.beta / (a.gridAt ℓ).dx ^ 2) +
        2 * (a.beta / (a.gridAt ℓ).dy ^ 2) ≠ 0) :
    a.smooth ℓ nsmooth = a := by
  have hfix : smoothFn (a.gridAt ℓ) (a.bc ℓ) a.alpha a.beta ((a.grids ℓ).f)
      nsmooth ((a.grids ℓ).v) = (a.grids ℓ).v := by
    rw [smoothFn, hbc]
    exact Function.iterate_fixed
      (smoothPass_fixed _ _ _ _ _ _ hbc hres hD) nsmooth
  rw [ccMG2d.smooth, hfix, setV_self]

/-- Witness for C4 at a concrete instance: `α = 0`, `β = −1`, `v ≡ 1`,
`f ≡ 0` on the 1×1 level; the residual vanishes, the fill fixes `v`, the
denominator is `−4`, and ten smoothing sweeps change nothing. -/
theorem c4_smooth_idempotent_witness :
    mgIdemExample.bc 0 ((mgIdemExample.grids 0).v) = (mgIdemExample.grids 0).v ∧
    mgIdemExample.alpha + 2 * (mgIdemExample.beta / (mgIdemExample.gridAt 0).dx ^ 2) +
      2 * (mgIdemExample.beta / (mgIdemExample.gridAt 0).dy ^ 2) ≠ 0 ∧
    mgIdemExample.smooth 0 10 = mgIdemExample := by
  have hbc : mgIdemExample.bc 0 ((mgIdemExample.grids 0).v) = (mgIdemExample.grids 0).v := by
    funext i j
    rfl
  have hD : mgIdemExample.alpha +
      2 * (mgIdemExample.beta / (mgIdemExample.gridAt 0).dx ^ 2) +
      2 * (mgIdemExample.beta / (mgIdemExample.gridAt 0).dy ^ 2) ≠ 0 := by
    norm_num [mgIdemExample, ccMG2d.make, ccMG2d.gridAt, Grid2d.dx, Grid2d.dy]
  refine ⟨hbc, hD, c4_smooth_idempotent mgIdemExample 0 10 hbc ?_ hD⟩
  intro i j _
  norm_num [mgIdemExample, ccMG2d.make, oneField, zeroField]

/-- Counterexample to C4 as stated: with `α = 4`, `β = −1` on a unit cell
the relaxation denominator is zero; `v ≡ 1`, `f ≡ 4` satisfy the discrete
equation exactly (the residual vanishes on the single interior cell (1,1)
and the fill fixes `v`), yet one smoothing sweep replaces `v(1,1) = 1`
by `0`. -/
theorem c4_counterexample :
    mgZeroDenomExample.bc 0 ((mgZeroDenomExample.grids 0).v) = (mgZeroDenomExample.grids 0).v ∧
    ((mgZeroDenomExample.computeResidual 0).grids 0).r 1 1 = 0 ∧
    ((mgZeroDenomExample.smooth 0 1).grids 0).v 1 1 = 0 ∧
    ((mgZeroDenomExample.grids 0).v 1 1 : ℝ) = 1 ∧ (0 : ℝ) ≠ 1 := by
  refine ⟨?_, ?_, ?_, rfl, by norm_num⟩
  · funext i j
    rfl
  · norm_num [mgZeroDenomExample, ccMG2d.make, ccMG2d.computeResidual,
      residualField, setR, Grid2d.interior, ccMG2d.gridAt, Grid2d.ilo,
      Grid2d.ihi, Grid2d.jlo, Grid2d.jhi, Grid2d.dx, Grid2d.dy, oneField]
  · norm_num [mgZeroDenomExample, ccMG2d.make, ccMG2d.smooth, smoothFn,
      Function.iterate_one, smoothPass, parityUpdate, periodicFill, setV,
      Grid2d.interior, ccMG2d.gridAt, Grid2d.ilo, Grid2d.ihi, Grid2d.jlo,
      Grid2d.jhi, Grid2d.dx, Grid2d.dy, oneField]

/-- C7 (amended): multigrid construction fails fatally exactly when
`nx ≠ ny` or the domain is not square; a non-power-of-two `nx` is not
checked; a limiter value other than 0 or 1 silently selects the 4th-order
limiter; a proj_type outside {1, 2} silently skips both the provisional
velocity update and the stored-gradient update. -/
theorem c7_config_checks :
    (∀ (nx ny : ℕ) (xmin xmax ymin ymax : ℝ),
      ccMG2dInitCheck nx ny xmin xmax ymin ymax = Except.ok () ↔
        (nx = ny ∧ xmax - xmin = ymax - ymin)) ∧
    (∀ l : ℤ, l ≠ 0 → l ≠ 1 → limiterChoice l = LimiterKind.limit4) ∧
    (∀ (p : ℤ) (dt : ℝ) (advect gradp u : Arr), p ≠ 1 → p ≠ 2 →
      provisionalVel p dt advect gradp u = u) ∧
    (∀ (p : ℤ) (gradp gradphi : Arr), p ≠ 1 → p ≠ 2 →
      gradpNew p gradp gradphi = gradp) := by
  refine ⟨?_, ?_, ?_, ?_⟩
  · intro nx ny xmin xmax ymin ymax
    rw [ccMG2dInitCheck]
    split_ifs with h1 h2 <;> simp_all
  · intro l h0 h1
    rw [limiterChoice, if_neg h0, if_neg h1]
  · intro p dt advect gradp u h1 h2
    rw [provisionalVel, if_neg h1, if_neg h2]
  · intro p gradp gradphi h1 h2
    rw [gradpNew, if_neg h1, if_neg h2]

/-- Witness for C7 at concrete inputs. -/
theorem c7_config_checks_witness :
    ccMG2dInitCheck 3 3 0 1 0 1 = Except.ok () ∧
    limiterChoice 7 = LimiterKind.limit4 ∧
    provisionalVel 3 1 zeroField zeroField oneField = oneField ∧
    gradpNew 3 oneField zeroField = oneField :=
  ⟨(c7_config_checks.1 3 3 0 1 0 1).2 ⟨rfl, by norm_num⟩,
   c7_config_checks.2.1 7 (by decide) (by decide),
   c7_config_checks.2.2.1 3 1 zeroField zeroField oneField (by decide) (by decide),
   c7_config_checks.2.2.2 3 oneField zeroField (by decide) (by decide)⟩

/-- Counterexample to C7 as stated: `nx = 12` is not a power of two, yet
construction passes its checks; `limiter = 7` is outside {0,1,2} yet
selects limit4 without error; `proj_type = 3` is outside {1,2} yet evolve
performs no update and raises no error. -/
theorem c7_counterexample :
    ccMG2dInitCheck 12 12 0 1 0 1 = Except.ok () ∧
    ¬ isPowerOfTwo 12 ∧
    limiterChoice 7 = LimiterKind.limit4 ∧
    provisionalVel 3 1 zeroField zeroField oneField = oneField ∧
    gradpNew 3 oneField zeroField = oneField := by
  refine ⟨?_, ?_, ?_, ?_, ?_⟩
  · rw [ccMG2dInitCheck]
    norm_num
  · rintro ⟨k, hk⟩
    have h4 : k < 4 := by
      by_contra hge
      push_neg at hge
      have h16 : (16 : ℕ) ≤ 2 ^ k := by
        calc (16 : ℕ) = 2 ^ 4 := by norm_num
        _ ≤ 2 ^ k := Nat.pow_le_pow_right (by norm_num) hge
      omega
    interval_cases k <;> norm_num at hk
  · rfl
  · rw [provisionalVel]
    norm_num
  · rw [gradpNew]
    norm_num

/-- C8: solve() invoked without both a solution initialization and an RHS
initialization fails with the initialization error and runs no V-cycle
(the error return carries no outcome); a fresh construction has both flags
clear, and each init operation sets its flag. -/
theorem c8_solve_requires_init :
    (∀ (a : ccMG2d) (rtol : ℝ),
      ¬(a.initializedSolution = true ∧ a.initializedRHS = true) →
        a.solve rtol = Except.error initErrorMsg) ∧
    (∀ (nx : ℕ) (xmin xmax ymin ymax alpha beta : ℝ)
      (bc restrictOp prolongOp : ℕ → Arr → Arr),
      (ccMG2d.make nx xmin xmax ymin ymax alpha beta bc restrictOp prolongOp).initializedSolution = false ∧
      (ccMG2d.make nx xmin xmax ymin ymax alpha beta bc restrictOp prolongOp).initializedRHS = false) ∧
    (∀ (a : ccMG2d) (d : Arr), (a.initSolution d).initializedSolution = true) ∧
    (∀ a : ccMG2d, a.initZeros.initializedSolution = true) ∧
    (∀ (a : ccMG2d) (d : Arr), (a.initRHS d).initializedRHS = true) := by
  refine ⟨?_, ?_, ?_, ?_, ?_⟩
  · intro a rtol h
    rw [ccMG2d.solve, if_pos h]
  · intros
    exact ⟨rfl, rfl⟩
  all_goals intros; rfl

/-- Witness for C8: a freshly constructed solver aborts solve with the
initialization error. -/
theorem c8_solve_requires_init_witness :
    ¬(mgExample.initializedSolution = true ∧ mgExample.initializedRHS = true) ∧
    mgExample.solve (1e-11) = Except.error initErrorMsg := by
  have h : ¬(mgExample.initializedSolution = true ∧ mgExample.initializedRHS = true) := by
    simp [mgExample, ccMG2d.make]
  exact ⟨h, c8_solve_requires_init.1 mgExample (1e-11) h⟩

/-- The ascending while-loop is a fold over the ascending level list. -/
theorem loopUpAux_eq_foldl {S : Type _} (f : ℕ → S → S) (n : ℕ) :
    ∀ (level : ℕ) (s : S), loopUpAux f n level s =
      (List.range' level n).foldl (fun t ℓ => f ℓ t) s := by
  induction n with
  | zero => intro level s; rfl
  | succ n ih =>
    intro level s
    rw [List.range'_succ, List.foldl_cons]
    exact ih (level + 1) (f level s)

/-- The descending while-loop is a fold over the descending level list. -/
theorem loopDown_eq_foldl {S : Type _} (f : ℕ → S → S) :
    ∀ (l : ℕ) (s : S), loopDown f l s =
      ((List.range' 1 l).reverse).foldl (fun t ℓ => f ℓ t) s := by
  intro l
  induction l with
  | zero => intro s; rfl
  | succ l ih =>
    intro s
    have h : (List.range' 1 (l + 1)).reverse = (l + 1) :: (List.range' 1 l).reverse := by
      rw [List.range'_concat, List.reverse_append, List.reverse_singleton]
      simp [Nat.add_comm]
    rw [h, List.foldl_cons]
    exact ih (f (l + 1) s)

/-- The pre-cycle zeroing loop zeroes `v` exactly on levels
`level, …, level+n-1`. -/
theorem loopUpAux_zero (n : ℕ) :
    ∀ (level : ℕ) (lv : Levels),
      loopUpAux (fun ℓ s => setV ℓ zeroField s) n level lv =
        fun ℓ' => if level ≤ ℓ' ∧ ℓ' < level + n then
          { lv ℓ' with v := zeroField } else lv ℓ' := by
  induction n with
  | zero =>
    intro level lv
    funext ℓ'
    rw [loopUpAux]
    have h : ¬(level ≤ ℓ' ∧ ℓ' < level + 0) := by omega
    rw [if_neg h]
  | succ n ih =>
    intro level lv
    funext ℓ'
    have hL : loopUpAux (fun ℓ s => setV ℓ zeroField s) (n + 1) level lv =
        loopUpAux (fun ℓ s => setV ℓ zeroField s) n (level + 1)
          (setV level zeroField lv) := rfl
    rw [hL]
    simp only [ih]
    by_cases h1 : level + 1 ≤ ℓ' ∧ ℓ' < level + 1 + n
    · rw [if_pos h1]
      have h2 : level ≤ ℓ' ∧ ℓ' < level + (n + 1) := by omega
      rw [if_pos h2, setV]
      have h3 : ¬(ℓ' = level) := by omega
      rw [if_neg h3]
    · rw [if_neg h1, setV]
      by_cases h3 : ℓ' = level
      · rw [if_pos h3]
        have h2 : level ≤ ℓ' ∧ ℓ' < level + (n + 1) := by omega
        rw [if_pos h2]
      · rw [if_neg h3]
        have h2 : ¬(level ≤ ℓ' ∧ ℓ' < level + (n + 1)) := by omega
        rw [if_neg h2]

/-- Under an interior-determined level-0 fill, the source's bottom-solve
*row* assignment and the spec's single-cell assignment produce the same
filled array: the 1×1 interior of level 0 is the single cell `(1, 1)`, on
which both agree, and the fill determines everything else. -/
theorem bottomStep_eq_spec (a : ccMG2d) (lv : Levels)
    (hbc : InteriorDetermined (a.gridAt 0) (a.bc 0)) :
    bottomStep a lv = bottomSpec a lv := by
  rw [bottomStep, bottomSpec]
  have hilo : (a.gridAt 0).ilo = 1 := by norm_num [ccMG2d.gridAt, Grid2d.ilo]
  have hihi : (a.gridAt 0).ihi = 1 := by norm_num [ccMG2d.gridAt, Grid2d.ihi]
  have hjlo : (a.gridAt 0).jlo = 1 := by norm_num [ccMG2d.gridAt, Grid2d.jlo]
  have hjhi : (a.gridAt 0).jhi = 1 := by norm_num [ccMG2d.gridAt, Grid2d.jhi]
  have hqy : ((a.gridAt 0).qy : ℤ) = 3 := by norm_num [ccMG2d.gridAt, Grid2d.qy]
  refine congrArg (fun w => setV 0 w lv) (hbc _ _ ?_)
  intro i j hint
  obtain ⟨h1, h2, h3, h4⟩ := hint
  rw [hilo] at h1
  rw [hihi] at h2
  rw [hjlo] at h3
  rw [hjhi] at h4
  have hi : i = 1 := by omega
  have hj : j = 1 := by omega
  subst hi hj
  rw [if_pos ⟨by rw [hilo], by omega, by rw [hqy]; omega⟩,
    if_pos ⟨by rw [hilo], by rw [hjlo]⟩]

/-- C2: every V-cycle of solve first zeroes `v` on every level except the
finest, then descends from level L−1 down to 1 (smooth, residual, restrict
into the coarser f), then bottom-solves level 0 by
`v_{ilo,jlo} = −0.125·f_{ilo,jlo}·dx²` and fills ghosts, then ascends from
level 1 up to L−1 (add the prolonged coarser `v`, then smooth); descent
completes before the bottom solve, which completes before the ascent.
Stated as equality with the spec's phase-by-phase transcription, given that
the level-0 fill is a function of the interior (true of every BCPolicy
fill). -/
theorem c2_vcycle_structure (a : ccMG2d) (lv : Levels)
    (hbc : InteriorDetermined (a.gridAt 0) (a.bc 0)) :
    vcycleLevels a lv = vcycleSpec a lv := by
  rw [vcycleLevels, vcycleSpec]
  have hz : loopUpAux (fun ℓ s => setV ℓ zeroField s) (a.nlevels - 1) 0 lv =
      preZeroSpec a lv := by
    rw [loopUpAux_zero]
    funext ℓ'
    rw [preZeroSpec]
    by_cases h : ℓ' < a.nlevels - 1
    · rw [if_pos ⟨by omega, by omega⟩, if_pos h]
    · rw [if_neg (by omega), if_neg h]
  rw [hz, loopDown_eq_foldl, loopUpAux_eq_foldl,
    bottomStep_eq_spec a _ hbc]
  rfl

/-- The periodic fill reads only interior values, at every index. -/
theorem periodicFill_interiorDetermined (g : Grid2d)
    (hx : 0 < g.nx) (hy : 0 < g.ny) :
    InteriorDetermined g (periodicFill g) := by
  intro u w h
  funext i j
  rw [periodicFill, periodicFill]
  apply h
  have hx' : (0 : ℤ) < (g.nx : ℤ) := by exact_mod_cast hx
  have hy' : (0 : ℤ) < (g.ny : ℤ) := by exact_mod_cast hy
  have h1 := Int.emod_nonneg (i - g.ilo) (by omega : (g.nx : ℤ) ≠ 0)
  have h2 := Int.emod_lt_of_pos (i - g.ilo) hx'
  have h3 := Int.emod_nonneg (j - g.jlo) (by omega : (g.ny : ℤ) ≠ 0)
  have h4 := Int.emod_lt_of_pos (j - g.jlo) hy'
  refine ⟨by omega, ?_, by omega, ?_⟩
  · rw [Grid2d.ihi, Grid2d.ilo]
    rw [Grid2d.ilo] at h2
    omega
  · rw [Grid2d.jhi, Grid2d.jlo]
    rw [Grid2d.jlo] at h4
    omega

/-- Witness for C2 at the concrete periodic-fill instance. -/
theorem c2_vcycle_structure_witness :
    InteriorDetermined (mgExample.gridAt 0) (mgExample.bc 0) ∧
    vcycleLevels mgExample zeroLevels = vcycleSpec mgExample zeroLevels := by
  have h : InteriorDetermined (mgExample.gridAt 0) (mgExample.bc 0) := by
    have := periodicFill_interiorDetermined (mgExample.gridAt 0)
      (by norm_num [ccMG2d.gridAt]) (by norm_num [ccMG2d.gridAt])
    exact this
  exact ⟨h, c2_vcycle_structure mgExample zeroLevels h⟩

/-- One unfolding of the solve loop. -/
theorem solveLoop_succ (a : ccMG2d) (rtol : ℝ) (fuel cycle : ℕ) (old : Arr)
    (lv : Levels) :
    solveLoop a rtol (fuel + 1) cycle old lv =
      if resErrOf a (cycleStep a lv) < rtol then
        { levels := setV a.finest (a.bc a.finest ((vcycleLevels a lv) a.finest).v)
            (cycleStep a lv),
          converged := true, cycle := cycle + 1, numCycles := cycle,
          residualError := resErrOf a (cycleStep a lv),
          relativeError := relErrOf a old (vcycleLevels a lv) }
      else solveLoop a rtol fuel (cycle + 1) ((vcycleLevels a lv) a.finest).v
        (cycleStep a lv) := rfl

/-- The loop exits converged exactly when some V-cycle within the remaining
fuel drives the residual error below rtol. -/
theorem solveLoop_converged_iff (a : ccMG2d) (rtol : ℝ) :
    ∀ (fuel cycle : ℕ) (old : Arr) (lv : Levels),
      (solveLoop a rtol fuel cycle old lv).converged = true ↔
        ∃ m : ℕ, m < fuel ∧ resErrOf a ((cycleStep a)^[m + 1] lv) < rtol := by
  intro fuel
  induction fuel with
  | zero =>
    intro cycle old lv
    simp [solveLoop]
  | succ fuel ih =>
    intro cycle old lv
    rw [solveLoop_succ]
    by_cases hc : resErrOf a (cycleStep a lv) < rtol
    · rw [if_pos hc]
      exact ⟨fun _ => ⟨0, Nat.succ_pos fuel, by simpa using hc⟩, fun _ => rfl⟩
    · rw [if_neg hc, ih]
      constructor
      · rintro ⟨m, hm, hres⟩
        refine ⟨m + 1, by omega, ?_⟩
        rw [Function.iterate_succ_apply]
        exact hres
      · rintro ⟨m, hm, hres⟩
        rcases m with _ | m
        · exact absurd (by simpa using hres) hc
        · refine ⟨m, by omega, ?_⟩
          rw [Function.iterate_succ_apply] at hres
          exact hres

/-- If the loop never converges, it runs through all its fuel, returns the
state after that many full cycles, and leaves every diagnostic attribute at
the value it was entered with. -/
theorem solveLoop_cap (a : ccMG2d) (rtol : ℝ) :
    ∀ (fuel cycle : ℕ) (old : Arr) (lv : Levels),
      (solveLoop a rtol fuel cycle old lv).converged = false →
      solveLoop a rtol fuel cycle old lv =
        { levels := (cycleStep a)^[fuel] lv, converged := false,
          cycle := cycle + fuel, numCycles := a.numCycles,
          residualError := a.residualError,
          relativeError := a.relativeError } := by
  intro fuel
  induction fuel with
  | zero =>
    intro cycle old lv _
    simp [solveLoop]
  | succ fuel ih =>
    intro cycle old lv hconv
    rw [solveLoop_succ] at hconv ⊢
    by_cases hc : resErrOf a (cycleStep a lv) < rtol
    · rw [if_pos hc] at hconv
      simp at hconv
    · rw [if_neg hc] at hconv ⊢
      rw [ih _ _ _ hconv]
      have h1 : (cycleStep a)^[fuel] (cycleStep a lv) =
          (cycleStep a)^[fuel + 1] lv := (Function.iterate_succ_apply _ _ _).symm
      have h2 : cycle + 1 + fuel = cycle + (fuel + 1) := by omega
      rw [h1, h2]

/-- On a converged exit, the recorded residualError is below rtol. -/
theorem solveLoop_conv_resErr (a : ccMG2d) (rtol : ℝ) :
    ∀ (fuel cycle : ℕ) (old : Arr) (lv : Levels),
      (solveLoop a rtol fuel cycle old lv).converged = true →
      (solveLoop a rtol fuel cycle old lv).residualError < rtol := by
  intro fuel
  induction fuel with
  | zero =>
    intro cycle old lv h
    simp [solveLoop] at h
  | succ fuel ih =>
    intro cycle old lv h
    rw [solveLoop_succ] at h ⊢
    by_cases hc : resErrOf a (cycleStep a lv) < rtol
    · rw [if_pos hc]
      exact hc
    · rw [if_neg hc] at h ⊢
      exact ih _ _ _ h

/-- C3 (amended): with both initializations done, solve returns (never
fatally): terminating as converged exactly when some V-cycle's finest-level
residual error `‖r‖/‖f‖` (or `‖r‖` when `‖f‖ = 0`) drops below rtol within
`maxCycles` cycles (default 100); a converged exit records a residual error
below rtol; a cycle whose residual error is below rtol exits immediately,
fills the finest-level ghost cells on the converged solution and records
that cycle's count and errors; a cap-limited exit is non-fatal and returns after exactly
`maxCycles` V-cycles, but leaves the diagnostics `numCycles`,
`residualError`, `relativeError` at the values they held *before* the solve
(the constructor's `0`, `1e33`, `1e33` on a fresh solver) instead of the
diagnostics of the run. -/
theorem c3_solve_convergence (a : ccMG2d) (rtol : ℝ)
    (h1 : a.initializedSolution = true) (h2 : a.initializedRHS = true) :
    a.solve rtol = Except.ok (solveOutcome a rtol) ∧
    ((solveOutcome a rtol).converged = true ↔
      ∃ m : ℕ, m < a.maxCycles ∧
        resErrOf a ((cycleStep a)^[m + 1] a.grids) < rtol) ∧
    ((solveOutcome a rtol).converged = false →
      solveOutcome a rtol =
        { levels := (cycleStep a)^[a.maxCycles] a.grids, converged := false,
          cycle := a.maxCycles + 1, numCycles := a.numCycles,
          residualError := a.residualError,
          relativeError := a.relativeError }) ∧
    ((solveOutcome a rtol).converged = true →
      (solveOutcome a rtol).residualError < rtol) ∧
    (∀ (fuel cycle : ℕ) (old : Arr) (lv : Levels),
      resErrOf a (cycleStep a lv) < rtol →
      solveLoop a rtol (fuel + 1) cycle old lv =
        { levels := setV a.finest (a.bc a.finest ((vcycleLevels a lv) a.finest).v)
            (cycleStep a lv),
          converged := true, cycle := cycle + 1, numCycles := cycle,
          residualError := resErrOf a (cycleStep a lv),
          relativeError := relErrOf a old (vcycleLevels a lv) }) ∧
    (∀ (nx : ℕ) (xmin xmax ymin ymax alpha beta : ℝ)
      (bc restrictOp prolongOp : ℕ → Arr → Arr),
      (ccMG2d.make nx xmin xmax ymin ymax alpha beta bc restrictOp prolongOp).maxCycles = 100) := by
  refine ⟨?_, ?_, ?_, ?_, ?_, ?_⟩
  · rw [ccMG2d.solve, if_neg (not_not_intro ⟨h1, h2⟩)]
  · rw [solveOutcome]
    exact solveLoop_converged_iff a rtol a.maxCycles 1 _ _
  · intro h
    rw [solveOutcome] at h ⊢
    rw [solveLoop_cap a rtol a.maxCycles 1 _ _ h, Nat.add_comm 1 a.maxCycles]
  · intro h
    rw [solveOutcome] at h ⊢
    exact solveLoop_conv_resErr a rtol a.maxCycles 1 _ _ h
  · intro fuel cycle old lv h
    rw [solveLoop_succ, if_pos h]
  · intros
    rfl

/-- Witness for C3: the initialized shared instance satisfies the
hypotheses and solve returns its outcome. -/
theorem c3_solve_convergence_witness :
    mgExampleInit.initializedSolution = true ∧
    mgExampleInit.initializedRHS = true ∧
    mgExampleInit.solve 1 = Except.ok (solveOutcome mgExampleInit 1) :=
  ⟨rfl, rfl, (c3_solve_convergence mgExampleInit 1 rfl rfl).1⟩

/-- The grid norm of the zero array vanishes. -/
theorem errNorm_zeroField (g : Grid2d) : errNorm g zeroField = 0 := by
  simp [errNorm, zeroField]

/-- Zeroing the `v` of any level of the zero hierarchy is a no-op. -/
theorem setV_zero (ℓ : ℕ) : setV ℓ zeroField zeroLevels = zeroLevels := by
  funext ℓ'
  rw [setV]
  split_ifs <;> rfl

theorem setF_zero (ℓ : ℕ) : setF ℓ zeroField zeroLevels = zeroLevels := by
  funext ℓ'
  rw [setF]
  split_ifs <;> rfl

theorem setR_zero (ℓ : ℕ) : setR ℓ zeroField zeroLevels = zeroLevels := by
  funext ℓ'
  rw [setR]
  split_ifs <;> rfl

/-- A parity sub-sweep with zero `f` fixes the zero array. -/
theorem parityUpdate_zeroField (g : Grid2d) (alpha beta : ℝ) (pa pb : ℤ) :
    parityUpdate g alpha beta zeroField pa pb zeroField = zeroField := by
  funext i j
  rw [parityUpdate]
  split_ifs
  · show ((0 : ℝ) + (beta / g.dx ^ 2) * (0 + 0) + (beta / g.dy ^ 2) * (0 + 0)) / _ = 0
    norm_num
  · rfl

/-- Smoothing the zero array against a zero RHS leaves it zero, for any
zero-preserving fill. -/
theorem smoothFn_zeroField (g : Grid2d) (bc : Arr → Arr) (alpha beta : ℝ)
    (n : ℕ) (hbc : bc zeroField = zeroField) :
    smoothFn g bc alpha beta zeroField n zeroField = zeroField := by
  rw [smoothFn, hbc]
  refine Function.iterate_fixed ?_ n
  show smoothPass g bc alpha beta zeroField zeroField = zeroField
  rw [smoothPass, parityUpdate_zeroField, parityUpdate_zeroField, hbc,
    parityUpdate_zeroField, parityUpdate_zeroField, hbc]

/-- The residual of the zero solution against a zero RHS is zero. -/
theorem residualField_zeroField (g : Grid2d) (alpha beta : ℝ) :
    residualField g alpha beta zeroField zeroField zeroField = zeroField := by
  funext i j
  rw [residualField]
  split_ifs
  · show (0 : ℝ) - alpha * 0 + beta * ((0 + 0 - 2 * 0) / (g.dx * g.dx) +
      (0 + 0 - 2 * 0) / (g.dy * g.dy)) = 0
    norm_num
  · rfl

/-- The periodic fill preserves the zero array. -/
theorem periodicFill_zeroField (g : Grid2d) :
    periodicFill g zeroField = zeroField := rfl

/-- Full-weighting restriction preserves the zero array. -/
theorem restrictFW_zeroField : restrictFW zeroField = zeroField := by
  funext i j
  show (0.25 : ℝ) * (0 + 0 + 0 + 0) = 0
  norm_num

/-- Piecewise-constant prolongation preserves the zero array. -/
theorem prolongPC_zeroField : prolongPC zeroField = zeroField := rfl

/-- The smoothing of a zero level of the zero hierarchy is zero. -/
theorem smoothFn_zeroArgs (a : ccMG2d) (ℓ n : ℕ)
    (hbc : a.bc ℓ zeroField = zeroField) :
    smoothFn (a.gridAt ℓ) (a.bc ℓ) a.alpha a.beta ((zeroLevels ℓ).f) n
      ((zeroLevels ℓ).v) = zeroField := by
  rw [show (zeroLevels ℓ).f = zeroField from rfl,
    show (zeroLevels ℓ).v = zeroField from rfl]
  exact smoothFn_zeroField _ _ _ _ _ hbc

/-- An ascending loop whose body fixes `s₀` fixes `s₀`. -/
theorem loopUpAux_fixed {S : Type _} (f : ℕ → S → S) (s₀ : S)
    (h : ∀ ℓ, f ℓ s₀ = s₀) : ∀ (n level : ℕ), loopUpAux f n level s₀ = s₀ := by
  intro n
  induction n with
  | zero => intro level; rfl
  | succ n ih =>
    intro level
    show loopUpAux f n (level + 1) (f level s₀) = s₀
    rw [h level]
    exact ih (level + 1)

/-- A descending loop whose body fixes `s₀` fixes `s₀`. -/
theorem loopDown_fixed {S : Type _} (f : ℕ → S → S) (s₀ : S)
    (h : ∀ ℓ, f ℓ s₀ = s₀) : ∀ l : ℕ, loopDown f l s₀ = s₀ := by
  intro l
  induction l with
  | zero => rfl
  | succ l ih =>
    show loopDown f l (f (l + 1) s₀) = s₀
    rw [h (l + 1)]
    exact ih

/-- A descent step on the all-zero hierarchy is a no-op. -/
theorem descentStep_zero (a : ccMG2d) (ℓ : ℕ)
    (hbc : a.bc ℓ zeroField = zeroField)
    (hre : a.restrictOp ℓ zeroField = zeroField) :
    descentStep a ℓ zeroLevels = zeroLevels := by
  simp only [descentStep]
  rw [smoothFn_zeroArgs a ℓ a.nsmooth hbc, setV_zero]
  rw [show (zeroLevels ℓ).v = zeroField from rfl,
    show (zeroLevels ℓ).f = zeroField from rfl,
    show (zeroLevels ℓ).r = zeroField from rfl,
    residualField_zeroField, setR_zero]
  rw [show (zeroLevels ℓ).r = zeroField from rfl, hre, setF_zero]

/-- The bottom solve on the all-zero hierarchy is a no-op. -/
theorem bottomStep_zero (a : ccMG2d) (hbc : a.bc 0 zeroField = zeroField) :
    bottomStep a zeroLevels = zeroLevels := by
  simp only [bottomStep]
  have hv : (fun i j => if i = (a.gridAt 0).ilo ∧ 0 ≤ j ∧ j < ((a.gridAt 0).qy : ℤ)
      then -0.125 * (zeroLevels 0).f i j * ((a.gridAt 0).dx * (a.gridAt 0).dx)
      else (zeroLevels 0).v i j) = zeroField := by
    funext i j
    split_ifs
    · show (-0.125 : ℝ) * 0 * _ = 0
      norm_num
    · rfl
  rw [hv, hbc, setV_zero]

/-- An ascent step on the all-zero hierarchy is a no-op. -/
theorem ascentStep_zero (a : ccMG2d) (ℓ : ℕ)
    (hbc : a.bc ℓ zeroField = zeroField)
    (hpr : a.prolongOp (ℓ - 1) zeroField = zeroField) :
    ascentStep a ℓ zeroLevels = zeroLevels := by
  simp only [ascentStep]
  rw [show (zeroLevels (ℓ - 1)).v = zeroField from rfl, hpr]
  have hv : (fun i j => (zeroLevels ℓ).v i j + zeroField i j) = zeroField := by
    funext i j
    show (0 : ℝ) + 0 = 0
    norm_num
  rw [hv, setV_zero, smoothFn_zeroArgs a ℓ a.nsmooth hbc, setV_zero]

/-- A V-cycle on the all-zero hierarchy is a no-op, for zero-preserving
collaborators. -/
theorem vcycleLevels_zero (a : ccMG2d)
    (hbc : ∀ ℓ, a.bc ℓ zeroField = zeroField)
    (hre : ∀ ℓ, a.restrictOp ℓ zeroField = zeroField)
    (hpr : ∀ ℓ, a.prolongOp ℓ zeroField = zeroField) :
    vcycleLevels a zeroLevels = zeroLevels := by
  simp only [vcycleLevels]
  rw [loopUpAux_fixed _ _ (fun ℓ => setV_zero ℓ),
    loopDown_fixed _ _ (fun ℓ => descentStep_zero a ℓ (hbc ℓ) (hre ℓ)),
    bottomStep_zero a (hbc 0),
    loopUpAux_fixed _ _ (fun ℓ => ascentStep_zero a ℓ (hbc ℓ) (hpr (ℓ - 1)))]

/-- A full cycle step on the all-zero hierarchy is a no-op. -/
theorem cycleStep_zero (a : ccMG2d)
    (hbc : ∀ ℓ, a.bc ℓ zeroField = zeroField)
    (hre : ∀ ℓ, a.restrictOp ℓ zeroField = zeroField)
    (hpr : ∀ ℓ, a.prolongOp ℓ zeroField = zeroField) :
    cycleStep a zeroLevels = zeroLevels := by
  simp only [cycleStep]
  rw [vcycleLevels_zero a hbc hre hpr]
  rw [show (zeroLevels a.finest).v = zeroField from rfl,
    show (zeroLevels a.finest).f = zeroField from rfl,
    show (zeroLevels a.finest).r = zeroField from rfl,
    residualField_zeroField, setR_zero]

/-- Counterexample to C3 as stated: on the zero problem with `rtol = 0` the
solver never converges, runs the full 100 V-cycles and returns non-fatally
— but the outcome reports `numCycles = 0`, `residualError = relativeError
= 1e33`, the constructor's initial values, not the diagnostics of the run
(whose actual residual error is 0 and which took 100 cycles). -/
theorem c3_counterexample :
    mgExampleInit.solve 0 = Except.ok
      { levels := zeroLevels, converged := false, cycle := 101,
        numCycles := 0, residualError := 1e33, relativeError := 1e33 } ∧
    resErrOf mgExampleInit zeroLevels = 0 ∧
    (0 : ℕ) ≠ 100 ∧ (1e33 : ℝ) ≠ 0 := by
  have hgrids : mgExampleInit.grids = zeroLevels := by
    show setF _ zeroField (setV _ zeroField zeroLevels) = zeroLevels
    rw [setV_zero, setF_zero]
  have hbcz : ∀ ℓ, mgExampleInit.bc ℓ zeroField = zeroField := by
    intro ℓ
    exact periodicFill_zeroField
      { nx := 2 ^ ℓ, ny := 2 ^ ℓ, ng := 1,
        xmin := 0, xmax := 1, ymin := 0, ymax := 1 }
  have hrez : ∀ ℓ, mgExampleInit.restrictOp ℓ zeroField = zeroField := by
    intro ℓ
    exact restrictFW_zeroField
  have hprz : ∀ ℓ, mgExampleInit.prolongOp ℓ zeroField = zeroField := by
    intro ℓ
    exact prolongPC_zeroField
  have hstep : cycleStep mgExampleInit zeroLevels = zeroLevels :=
    cycleStep_zero mgExampleInit hbcz hrez hprz
  have hsrc : mgExampleInit.sourceNorm = 0 := by
    show errNorm _ zeroField = 0
    exact errNorm_zeroField _
  have hres0 : resErrOf mgExampleInit zeroLevels = 0 := by
    rw [resErrOf, hsrc, if_neg (by norm_num)]
    rw [show (zeroLevels mgExampleInit.finest).r = zeroField from rfl]
    exact errNorm_zeroField _
  have hcfalse : (solveLoop mgExampleInit 0 mgExampleInit.maxCycles 1
      ((mgExampleInit.grids mgExampleInit.finest).v)
      mgExampleInit.grids).converged = false := by
    rcases Bool.eq_false_or_eq_true ((solveLoop mgExampleInit 0
      mgExampleInit.maxCycles 1 ((mgExampleInit.grids mgExampleInit.finest).v)
      mgExampleInit.grids).converged) with h | h
    · exfalso
      rw [solveLoop_converged_iff] at h
      obtain ⟨m, _, hm⟩ := h
      rw [hgrids, Function.iterate_fixed hstep] at hm
      rw [hres0] at hm
      exact absurd hm (by norm_num)
    · exact h
  refine ⟨?_, hres0, by norm_num, by norm_num⟩
  rw [ccMG2d.solve, if_neg (not_not_intro ⟨rfl, rfl⟩), solveOutcome]
  rw [solveLoop_cap mgExampleInit 0 mgExampleInit.maxCycles 1 _ _ hcfalse]
  rw [hgrids, Function.iterate_fixed hstep]
  rfl

/-- C9 (amended): evolve(Δt) leaves the stored simulation time `t`
unchanged — evolve never writes `t`; time is advanced outside evolve. -/
theorem c9_evolve_time : ∀ (rp : SimParams) (K : Kernels) (g : Grid2d)
    (dt : ℝ) (st : FlowState), (evolve rp K g dt st).t = st.t := by
  intros
  rfl

/-- C5 (amended): preevolve performs the initial projection, clones the
full flow state, takes one full evolve(Δt) with the *configured* proj_type
(evolve rereads `incompressible.proj_type` from the runtime parameters; no
override to 1 happens), and then restores every stored field (u, v, φ,
φ_MAC, and t) from the clone, except gradp_x and gradp_y, which keep the
values produced by that evolve. -/
theorem c5_preevolve_restores (rp : SimParams) (K : Kernels) (g : Grid2d)
    (st : FlowState) :
    (preevolve rp K g st).u = (initialProjection K g st).u ∧
    (preevolve rp K g st).v = (initialProjection K g st).v ∧
    (preevolve rp K g st).phi = (initialProjection K g st).phi ∧
    (preevolve rp K g st).phiMAC = (initialProjection K g st).phiMAC ∧
    (preevolve rp K g st).t = (initialProjection K g st).t ∧
    (preevolve rp K g st).gradpX =
      (evolve rp K g
        (timestep rp g (initialProjection K g st).u (initialProjection K g st).v)
        (initialProjection K g st)).gradpX ∧
    (preevolve rp K g st).gradpY =
      (evolve rp K g
        (timestep rp g (initialProjection K g st).u (initialProjection K g st).v)
        (initialProjection K g st)).gradpY :=
  ⟨rfl, rfl, rfl, rfl, rfl, rfl, rfl⟩

/-- Counterexample to C5 as stated: with `proj_type = 2` configured, the
stored gradient preevolve keeps is the one the proj_type-2 evolve produced
(here 0 at the ghost cell (0,0)), not the one a forced proj_type-1 evolve
would have produced (here 1); so the preevolve of the claim, which forces
proj_type = 1, disagrees with the code's. -/
theorem c5_counterexample :
    (preevolve rpProj2 kernels0 flowGrid flowOne).gradpX 0 0 = 0 ∧
    (preevolveClaimed rpProj2 kernels0 flowGrid flowOne).gradpX 0 0 = 1 ∧
    (0 : ℝ) ≠ 1 := by
  refine ⟨rfl, ?_, by norm_num⟩
  have h : (preevolveClaimed rpProj2 kernels0 flowGrid flowOne).gradpX 0 0 =
      (1 : ℝ) + 0 := rfl
  rw [h]
  norm_num

/-- A min-fold is bounded by its initial value. -/
theorem foldl_min_le_init : ∀ (xs : List ℝ) (x : ℝ), xs.foldl min x ≤ x := by
  intro xs
  induction xs with
  | nil => intro x; exact le_refl x
  | cons y ys ih =>
    intro x
    calc (y :: ys).foldl min x = ys.foldl min (min x y) := rfl
    _ ≤ min x y := ih (min x y)
    _ ≤ x := min_le_left x y

/-- A min-fold is bounded by every list element. -/
theorem foldl_min_le_mem : ∀ (xs : List ℝ) (x y : ℝ), y ∈ xs →
    xs.foldl min x ≤ y := by
  intro xs
  induction xs with
  | nil => intro x y h; cases h
  | cons z zs ih =>
    intro x y hy
    rcases List.mem_cons.mp hy with h | h
    · calc (z :: zs).foldl min x ≤ min x z := foldl_min_le_init zs (min x z)
      _ ≤ z := min_le_right x z
      _ = y := h.symm
    · exact ih (min x z) y h

/-- A common lower bound of the seed and the list bounds the min-fold. -/
theorem le_foldl_min : ∀ (xs : List ℝ) (x c : ℝ), c ≤ x →
    (∀ y ∈ xs, c ≤ y) → c ≤ xs.foldl min x := by
  intro xs
  induction xs with
  | nil => intro x c hx _; exact hx
  | cons z zs ih =>
    intro x c hx h
    exact ih (min x z) c (le_min hx (h z (List.mem_cons_self z zs)))
      (fun y hy => h y (List.mem_cons_of_mem z hy))

/-- A min-fold is attained by the seed or an element. -/
theorem foldl_min_mem : ∀ (xs : List ℝ) (x : ℝ), xs.foldl min x ∈ x :: xs := by
  intro xs
  induction xs with
  | nil => intro x; exact List.mem_singleton.mpr rfl
  | cons z zs ih =>
    intro x
    have h := ih (min x z)
    rcases List.mem_cons.mp h with h1 | h1
    · have h2 : (z :: zs).foldl min x = min x z := h1
      rcases min_choice x z with hm | hm
      · rw [h2, hm]
        exact List.mem_cons_self x (z :: zs)
      · rw [h2, hm]
        exact List.mem_cons_of_mem x (List.mem_cons_self z zs)
    · exact List.mem_cons_of_mem x (List.mem_cons_of_mem z h1)

/-- `listMinD` is bounded by every element. -/
theorem listMinD_le {l : List ℝ} {y : ℝ} (hy : y ∈ l) : listMinD l ≤ y := by
  cases l with
  | nil => cases hy
  | cons x xs =>
    rcases List.mem_cons.mp hy with h | h
    · rw [h]
      exact foldl_min_le_init xs x
    · exact foldl_min_le_mem xs x y h

/-- A common lower bound of a nonempty list bounds `listMinD`. -/
theorem le_listMinD {l : List ℝ} {c : ℝ} (hne : l ≠ [])
    (h : ∀ y ∈ l, c ≤ y) : c ≤ listMinD l := by
  cases l with
  | nil => exact absurd rfl hne
  | cons x xs =>
    exact le_foldl_min xs x c (h x (List.mem_cons_self x xs))
      (fun y hy => h y (List.mem_cons_of_mem x hy))

/-- `listMinD` of a nonempty list is one of its elements. -/
theorem listMinD_mem {l : List ℝ} (hne : l ≠ []) : listMinD l ∈ l := by
  cases l with
  | nil => exact absurd rfl hne
  | cons x xs => exact foldl_min_mem xs x

/-- C6 (amended): timestep() returns
`Δt = cfl · min(min(dx/|u|), min(dy/|v|))` where both inner minima range
over *every* stored cell, ghost cells included (not the interior only):
`Δt` is a lower bound of `cfl·dx/|u|` and `cfl·dy/|v|` over all cells, and
is attained at some cell of the full array. -/
theorem c6_timestep_whole_array (rp : SimParams) (g : Grid2d) (u v : Arr)
    (hcfl : 0 ≤ rp.cfl) (hne : allCells g ≠ []) :
    (∀ c ∈ allCells g,
      timestep rp g u v ≤ rp.cfl * (g.dx / |u c.1 c.2|) ∧
      timestep rp g u v ≤ rp.cfl * (g.dy / |v c.1 c.2|)) ∧
    ((∃ c ∈ allCells g,
        timestep rp g u v = rp.cfl * (g.dx / |u c.1 c.2|)) ∨
     (∃ c ∈ allCells g,
        timestep rp g u v = rp.cfl * (g.dy / |v c.1 c.2|))) := by
  constructor
  · intro c hc
    constructor
    · refine mul_le_mul_of_nonneg_left ?_ hcfl
      refine le_trans (min_le_left _ _) ?_
      exact listMinD_le
        (List.mem_map_of_mem (fun c => g.dx / |u c.1 c.2|) hc)
    · refine mul_le_mul_of_nonneg_left ?_ hcfl
      refine le_trans (min_le_right _ _) ?_
      exact listMinD_le
        (List.mem_map_of_mem (fun c => g.dy / |v c.1 c.2|) hc)
  · rcases min_choice (arrayMin g (fun i j => g.dx / |u i j|))
      (arrayMin g (fun i j => g.dy / |v i j|)) with hm | hm
    · left
      have hmem : listMinD ((allCells g).map (fun c => g.dx / |u c.1 c.2|)) ∈
          (allCells g).map (fun c => g.dx / |u c.1 c.2|) := by
        refine listMinD_mem ?_
        intro hmap
        exact hne (List.map_eq_nil_iff.mp hmap)
      obtain ⟨c, hc, hval⟩ := List.mem_map.mp hmem
      refine ⟨c, hc, ?_⟩
      rw [timestep, hm]
      rw [show arrayMin g (fun i j => g.dx / |u i j|) =
        listMinD ((allCells g).map (fun c => g.dx / |u c.1 c.2|)) from rfl, ← hval]
    · right
      have hmem : listMinD ((allCells g).map (fun c => g.dy / |v c.1 c.2|)) ∈
          (allCells g).map (fun c => g.dy / |v c.1 c.2|) := by
        refine listMinD_mem ?_
        intro hmap
        exact hne (List.map_eq_nil_iff.mp hmap)
      obtain ⟨c, hc, hval⟩ := List.mem_map.mp hmem
      refine ⟨c, hc, ?_⟩
      rw [timestep, hm]
      rw [show arrayMin g (fun i j => g.dy / |v i j|) =
        listMinD ((allCells g).map (fun c => g.dy / |v c.1 c.2|)) from rfl, ← hval]

/-- Witness for C6 at a concrete one-cell grid. -/
theorem c6_timestep_whole_array_witness :
    (0 : ℝ) ≤ rpProj2.cfl ∧ allCells tinyGrid ≠ [] ∧
    timestep rpProj2 tinyGrid oneField oneField ≤
      rpProj2.cfl * (tinyGrid.dx / |oneField 0 0|) :=
  ⟨by norm_num [rpProj2], by decide,
   ((c6_timestep_whole_array rpProj2 tinyGrid oneField oneField
      (by norm_num [rpProj2]) (by decide)).1 ((0 : ℤ), (0 : ℤ)) (by decide)).1⟩

/-- Counterexample to C6 as stated: with `|u| = 2` at the ghost corner
`(0,0)` and `|u| = |v| = 1` on the interior, the code's timestep is `1/2`
(the ghost cell participates in the minimum) while the claimed
interior-only formula gives `1`. -/
theorem c6_counterexample :
    timestep rpProj2 flowGrid uSpike oneField = 1 / 2 ∧
    timestepInteriorOnly rpProj2 flowGrid uSpike oneField = 1 ∧
    (1 / 2 : ℝ) ≠ 1 := by
  have hdx : flowGrid.dx = 1 := by norm_num [flowGrid, Grid2d.dx]
  have hdy : flowGrid.dy = 1 := by norm_num [flowGrid, Grid2d.dy]
  have hnil : allCells flowGrid ≠ [] := by decide
  have hA : arrayMin flowGrid (fun i j => flowGrid.dx / |uSpike i j|) = 1 / 2 := by
    apply le_antisymm
    · have hmem : ((0 : ℤ), (0 : ℤ)) ∈ allCells flowGrid := by decide
      calc arrayMin flowGrid (fun i j => flowGrid.dx / |uSpike i j|)
          ≤ flowGrid.dx / |uSpike 0 0| :=
            listMinD_le (List.mem_map_of_mem (fun c => flowGrid.dx / |uSpike c.1 c.2|) hmem)
      _ = 1 / 2 := by
        rw [hdx]
        rw [show uSpike 0 0 = 2 from rfl,
          show |(2 : ℝ)| = 2 from abs_of_pos (by norm_num)]
    · refine le_listMinD ?_ ?_
      · intro hmap
        exact hnil (List.map_eq_nil_iff.mp hmap)
      · rintro y hy
        obtain ⟨c, _, rfl⟩ := List.mem_map.mp hy
        rw [hdx]
        simp only [uSpike]
        split_ifs
        · rw [show |(2 : ℝ)| = 2 from abs_of_pos (by norm_num)]
        · rw [show |(1 : ℝ)| = 1 from abs_of_pos (by norm_num)]
          norm_num
  have hB : arrayMin flowGrid (fun i j => flowGrid.dy / |oneField i j|) = 1 := by
    apply le_antisymm
    · have hmem : ((0 : ℤ), (0 : ℤ)) ∈ allCells flowGrid := by decide
      calc arrayMin flowGrid (fun i j => flowGrid.dy / |oneField i j|)
          ≤ flowGrid.dy / |oneField 0 0| :=
            listMinD_le (List.mem_map_of_mem (fun c => flowGrid.dy / |oneField c.1 c.2|) hmem)
      _ = 1 := by
        rw [hdy, show oneField 0 0 = 1 from rfl,
          show |(1 : ℝ)| = 1 from abs_of_pos (by norm_num)]
        norm_num
    · refine le_listMinD ?_ ?_
      · intro hmap
        exact hnil (List.map_eq_nil_iff.mp hmap)
      · rintro y hy
        obtain ⟨c, _, rfl⟩ := List.mem_map.mp hy
        rw [hdy]
        simp only [oneField, abs_one]
        norm_num
  refine ⟨?_, ?_, by norm_num⟩
  · rw [timestep, hA, hB, min_eq_left (by norm_num)]
    norm_num [rpProj2]
  · have hint : interiorCellsList flowGrid = [((4 : ℤ), (4 : ℤ))] := by decide
    rw [timestepInteriorOnly, hint]
    have h1 : listMinD (List.map (fun c => flowGrid.dx / |uSpike c.1 c.2|)
        [((4 : ℤ), (4 : ℤ))]) = flowGrid.dx / |uSpike 4 4| := rfl
    have h2 : listMinD (List.map (fun c => flowGrid.dy / |oneField c.1 c.2|)
        [((4 : ℤ), (4 : ℤ))]) = flowGrid.dy / |oneField 4 4| := rfl
    rw [h1, h2, hdx, hdy]
    rw [show uSpike 4 4 = 1 by norm_num [uSpike],
      show oneField 4 4 = 1 from rfl,
      show |(1 : ℝ)| = 1 from abs_of_pos (by norm_num)]
    norm_num [rpProj2]

/-- Counterexample to C9 as stated: a concrete evolve call with `Δt = 1`
does not advance `t` by `Δt`. -/
theorem c9_counterexample :
    (evolve rpProj2 kernels0 flowGrid 1 flowOne).t ≠ flowOne.t + 1 := by
  have h : (evolve rpProj2 kernels0 flowGrid 1 flowOne).t = 0 := rfl
  have h0 : flowOne.t = 0 := rfl
  rw [h, h0]
  norm_num
